import Mathlib

/-!
# Cointracker: address synchronisation engine

A shallow embedding of the Go sources

* `models/address_data.go`            (provider-facing data),
* `database/databaseHandler.go`       (the SQLite-backed store),
* `blockexplorers/blockchain.com/blockchainAPI.go` (paginating provider),
* `main.go`                           (`addAddress`, `removeAddress`,
  `updateAddress`, the aggregation loop of `getAccountInfo`),

followed by the properties established about them.

Modelling conventions.

* The process-wide handle `dbh` becomes an explicit `World` value threaded
  through every call.  The two tables used by the engine are lists of rows in
  insertion order.  `PRIMARY KEY` columns (`addresses.addrKey`,
  `transactions.txHash`, both `TEXT`) make an `INSERT` with an existing key
  fail with a constraint error and leave the table as it was.
* Column `transactions.addrKey` is declared `INT`, unlike
  `addresses.addrKey`.  SQLite stores a text that reads as a number in such a
  column as that number, and applies the same reading to the parameter of
  `WHERE addrKey=?`.  This conversion belongs to SQLite, not to the program:
  every store function that touches the column takes it as the parameter
  `aff`, the text the column gives back for a key.
* The arguments of `Exec` go through `database/sql`, which refuses a `uint64`
  with the high bit set: a balance of `2 ^ 63` or more makes `InsertAddress`
  and `UpdateAddressBalance` fail with a conversion error, nothing written.
* `CountTransactions` returns after one `rows.Next()` without closing `rows`.
  The abandoned cursor keeps a read lock on the database until the garbage
  collector finalizes it; while one is open, a statement that has rows to
  write fails with `database is locked`.  `World.cursors` counts the open
  cursors and `World.gc` schedules the collector: each store call consumes
  one entry, `true` meaning that the abandoned cursors were finalized before
  the call.  An exhausted schedule means no further collection.
* Every `h.db.Exec` / `h.db.Query` may also fail for reasons outside the
  program (I/O).  `World.faults` is the schedule of such failures: each store
  call consumes one entry, `true` meaning that the call fails and changes
  nothing.  An exhausted schedule means no further failure.
* The process-wide handle `beh` becomes a parameter.  Each call of
  `GetAddressData` made by the engine is appended to `World.calls`.
* Go `error` results are `Option Error` (`none` is `nil`); a Go pair
  `(value, error)` in which exactly one side is meaningful is an `Except`.
* `uint64` balances are naturals; the one place where the program does
  arithmetic on them (`getAccountInfo`) reduces modulo `2 ^ 64`.  Offsets
  and row counts are naturals: the engine only ever passes `0` or the result
  of `COUNT(*)`.
-/

namespace Cointracker

/-! ## models/address_data.go -/

namespace models

/-- Go `models.Transaction`. -/
structure Transaction where
  Hash : String
  Block : Nat
  Result : Int
deriving DecidableEq

/-- Go `models.AddressData`. -/
structure AddressData where
  Address : String
  Balance : Nat
  Transactions : List Transaction
deriving DecidableEq

end models

/-! ## database/databaseHandler.go -/

/-- The errors the engine can observe. -/
inductive Error where
  /-- Go `sql.ErrNoRows`. -/
  | ErrNoRows
  /-- A primary-key conflict reported by an `INSERT`. -/
  | constraint
  /-- The error `database is locked`: rows to write while a read cursor is open. -/
  | locked
  /-- The refusal by `database/sql` of a `uint64` argument with the high bit set. -/
  | conversion
  /-- Any other failure reported by the database driver. -/
  | storeFault
  /-- An error returned by the block explorer. -/
  | provider (msg : String)
deriving DecidableEq

namespace database

/-- Go `database.Address`, a row of table `addresses`. -/
structure Address where
  AddrKey : String
  Balance : Nat
  Username : String
deriving DecidableEq

/-- Go `database.Transaction`, a row of table `transactions`; `AddrKey` is the
key as the `INT` column gives it back. -/
structure Transaction where
  TxHash : String
  Block : Nat
  Result : Int
  AddrKey : String
deriving DecidableEq

end database

/-- The contents of the two tables used by the engine. -/
structure Tables where
  addresses : List database.Address
  transactions : List database.Transaction
deriving DecidableEq

/-- What the engine runs against: the tables behind `dbh`, the schedule of
driver failures, the log of provider calls made so far, the number of read
cursors left open, and the schedule of the garbage collector. -/
structure World where
  db : Tables
  faults : List Bool
  calls : List (String × Nat)
  cursors : Nat
  gc : List Bool
deriving DecidableEq

/-- SQLite type affinity of column `transactions.addrKey`: the text the column
gives back for a key stored in it or compared with it. -/
abbrev KeyAffinity := String → String

/-- Consume the next entry of the collector schedule. -/
def collect (w : World) : World :=
  match w.gc with
  | [] => w
  | g :: gs => { w with cursors := if g then 0 else w.cursors, gc := gs }

/-- Consume the next entry of the failure schedule. -/
def nextFault (w : World) : Bool × World :=
  match w.faults with
  | [] => (false, w)
  | f :: fs => (f, { w with faults := fs })

/-- The start of a store call: one entry of each schedule is consumed. -/
def enter (w : World) : Bool × World := nextFault (collect w)

/-- Go `InsertAddress`: `INSERT INTO addresses VALUES(?,?,?)`. -/
def InsertAddress (addrKey : String) (balance : Nat) (username : String) (w : World) :
    Option Error × World :=
  let fw := enter w
  if fw.1 then (some Error.storeFault, fw.2)
  else if 2 ^ 63 ≤ balance then (some Error.conversion, fw.2)
  else if ∃ a ∈ fw.2.db.addresses, a.AddrKey = addrKey then (some Error.constraint, fw.2)
  else if 0 < fw.2.cursors then (some Error.locked, fw.2)
  else (none, { fw.2 with db := { fw.2.db with
    addresses := fw.2.db.addresses ++ [⟨addrKey, balance, username⟩] } })

/-- Go `DeleteAddress`: `DELETE FROM addresses WHERE addrKey=?`. -/
def DeleteAddress (addrKey : String) (w : World) : Option Error × World :=
  let fw := enter w
  if fw.1 then (some Error.storeFault, fw.2)
  else if (∃ a ∈ fw.2.db.addresses, a.AddrKey = addrKey) ∧ 0 < fw.2.cursors then
    (some Error.locked, fw.2)
  else (none, { fw.2 with db := { fw.2.db with
    addresses := fw.2.db.addresses.filter (fun a => decide (a.AddrKey ≠ addrKey)) } })

/-- Go `RetrieveAddress`: the row selected by `addrKey`, `ErrNoRows` when the
`Scan` finds none. -/
def RetrieveAddress (addrKey : String) (w : World) : Except Error database.Address × World :=
  let fw := enter w
  if fw.1 then (Except.error Error.storeFault, fw.2)
  else match fw.2.db.addresses.find? (fun a => decide (a.AddrKey = addrKey)) with
    | none => (Except.error Error.ErrNoRows, fw.2)
    | some a => (Except.ok a, fw.2)

/-- Go `RetrieveAddresses`: the rows owned by `username`. -/
def RetrieveAddresses (username : String) (w : World) :
    Except Error (List database.Address) × World :=
  let fw := enter w
  if fw.1 then (Except.error Error.storeFault, fw.2)
  else (Except.ok (fw.2.db.addresses.filter (fun a => decide (a.Username = username))), fw.2)

/-- Go `UpdateAddressBalance`: `UPDATE addresses SET balance=? WHERE addrKey=?`. -/
def UpdateAddressBalance (addrKey : String) (newBalance : Nat) (w : World) :
    Option Error × World :=
  let fw := enter w
  if fw.1 then (some Error.storeFault, fw.2)
  else if 2 ^ 63 ≤ newBalance then (some Error.conversion, fw.2)
  else if (∃ a ∈ fw.2.db.addresses, a.AddrKey = addrKey) ∧ 0 < fw.2.cursors then
    (some Error.locked, fw.2)
  else (none, { fw.2 with db := { fw.2.db with
    addresses := fw.2.db.addresses.map
      (fun a => if a.AddrKey = addrKey then { a with Balance := newBalance } else a) } })

/-- Go `InsertTransaction`: `INSERT INTO transactions VALUES(?,?,?,?)`.  The
address goes into the `INT` column `addrKey`. -/
def InsertTransaction (aff : KeyAffinity) (txHash : String) (block : Nat) (result : Int)
    (address : String) (w : World) : Option Error × World :=
  let fw := enter w
  if fw.1 then (some Error.storeFault, fw.2)
  else if ∃ t ∈ fw.2.db.transactions, t.TxHash = txHash then (some Error.constraint, fw.2)
  else if 0 < fw.2.cursors then (some Error.locked, fw.2)
  else (none, { fw.2 with db := { fw.2.db with
    transactions := fw.2.db.transactions ++ [⟨txHash, block, result, aff address⟩] } })

/-- Go `DeleteTransactions`: `DELETE FROM transactions WHERE addrKey=?`. -/
def DeleteTransactions (aff : KeyAffinity) (addrKey : String) (w : World) :
    Option Error × World :=
  let fw := enter w
  if fw.1 then (some Error.storeFault, fw.2)
  else if (∃ t ∈ fw.2.db.transactions, t.AddrKey = aff addrKey) ∧ 0 < fw.2.cursors then
    (some Error.locked, fw.2)
  else (none, { fw.2 with db := { fw.2.db with
    transactions := fw.2.db.transactions.filter (fun t => decide (t.AddrKey ≠ aff addrKey)) } })

/-- Go `RetrieveTransactions`: the rows whose `addrKey` matches the given one. -/
def RetrieveTransactions (aff : KeyAffinity) (addrKey : String) (w : World) :
    Except Error (List database.Transaction) × World :=
  let fw := enter w
  if fw.1 then (Except.error Error.storeFault, fw.2)
  else (Except.ok
    (fw.2.db.transactions.filter (fun t => decide (t.AddrKey = aff addrKey))), fw.2)

/-- Go `CountTransactions`: `SELECT COUNT(*) FROM transactions WHERE addrKey=?`.
The aggregate query always yields one row, so the `Unexpected path` branch is
not taken; `rows` is not closed, which leaves one more cursor open. -/
def CountTransactions (aff : KeyAffinity) (addrKey : String) (w : World) :
    Except Error Nat × World :=
  let fw := enter w
  if fw.1 then (Except.error Error.storeFault, fw.2)
  else (Except.ok
    (fw.2.db.transactions.filter (fun t => decide (t.AddrKey = aff addrKey))).length,
    { fw.2 with cursors := fw.2.cursors + 1 })

/-! ## main.go -/

/-- Go interface `BlockExplorerHandler`: its one method `GetAddressData`. -/
abbrev BlockExplorerHandler := String → Nat → Except Error models.AddressData

/-- The call `beh.GetAddressData(address, offset)`, recorded in the log. -/
def GetAddressData (beh : BlockExplorerHandler) (address : String) (offset : Nat) (w : World) :
    Except Error models.AddressData × World :=
  (beh address offset, { w with calls := w.calls ++ [(address, offset)] })

/-- The loop `for _, tx := range txs { err = dbh.InsertTransaction(...) }` shared
by `addAddress` and `updateAddress`: every iteration assigns `err`, and the
value is inspected only after the loop. -/
def insertTransactions (aff : KeyAffinity) (address : String) :
    List models.Transaction → Option Error → World → Option Error × World
  | [], err, w => (err, w)
  | tx :: rest, _, w =>
    let r := InsertTransaction aff tx.Hash tx.Block tx.Result address w
    insertTransactions aff address rest r.1 r.2

/-- Go `addAddress`: the pair `(added, err)` and the world it leaves. -/
def addAddress (aff : KeyAffinity) (beh : BlockExplorerHandler) (address username : String)
    (w : World) : (Bool × Option Error) × World :=
  match RetrieveAddress address w with
  | (Except.ok _, w1) => ((false, none), w1)
  | (Except.error e, w1) =>
    if e ≠ Error.ErrNoRows then ((false, some e), w1)
    else match GetAddressData beh address 0 w1 with
      | (Except.error e2, w2) => ((false, some e2), w2)
      | (Except.ok addressData, w2) =>
        match InsertAddress address addressData.Balance username w2 with
        | (some e3, w3) => ((false, some e3), w3)
        | (none, w3) =>
          match insertTransactions aff address addressData.Transactions none w3 with
          | (some e4, w4) => ((false, some e4), w4)
          | (none, w4) => ((true, none), w4)

/-- Go `removeAddress`: the pair `(removed, err)` and the world it leaves. -/
def removeAddress (aff : KeyAffinity) (address : String) (w : World) :
    (Bool × Option Error) × World :=
  match RetrieveAddress address w with
  | (Except.error e, w1) =>
    if e = Error.ErrNoRows then ((false, none), w1) else ((false, some e), w1)
  | (Except.ok _, w1) =>
    match DeleteAddress address w1 with
    | (some e2, w2) => ((false, some e2), w2)
    | (none, w2) =>
      match DeleteTransactions aff address w2 with
      | (some e3, w3) => ((false, some e3), w3)
      | (none, w3) => ((true, none), w3)

/-- Go `updateAddress`: the pair `(updated, err)` and the world it leaves. -/
def updateAddress (aff : KeyAffinity) (beh : BlockExplorerHandler) (address : String)
    (w : World) : (Bool × Option Error) × World :=
  match CountTransactions aff address w with
  | (Except.error e, w1) => ((false, some e), w1)
  | (Except.ok count, w1) =>
    match GetAddressData beh address count w1 with
    | (Except.error e2, w2) => ((false, some e2), w2)
    | (Except.ok addressData, w2) =>
      if addressData.Transactions.length > 0 then
        match insertTransactions aff address addressData.Transactions none w2 with
        | (some e3, w3) => ((false, some e3), w3)
        | (none, w3) =>
          match UpdateAddressBalance address addressData.Balance w3 with
          | (some e4, w4) => ((false, some e4), w4)
          | (none, w4) => ((true, none), w4)
      else ((false, none), w2)

/-- Go `getAccountInfoResponse`.  `AccountBalance` is a `uint64`;
`TotalTransactionCount` is an `int` that counts rows held in memory and so
stays far below `2 ^ 63`. -/
structure getAccountInfoResponse where
  AccountBalance : Nat
  TotalTransactionCount : Nat
  Addresses : List models.AddressData
deriving DecidableEq

/-- The inner loop of `getAccountInfo`: every stored transaction is appended
to `addressData.Transactions` and `response.TotalTransactionCount++`. -/
def appendTransactions :
    List database.Transaction → models.AddressData → Nat → models.AddressData × Nat
  | [], addressData, count => (addressData, count)
  | tx :: rest, addressData, count =>
    appendTransactions rest
      { addressData with
        Transactions := addressData.Transactions ++ [⟨tx.TxHash, tx.Block, tx.Result⟩] }
      (count + 1)

/-- The outer loop of `getAccountInfo` over the account's addresses; a failing
`RetrieveTransactions` ends the request with that error. -/
def accountInfoLoop (aff : KeyAffinity) :
    List database.Address → getAccountInfoResponse → World →
      Except Error getAccountInfoResponse × World
  | [], response, w => (Except.ok response, w)
  | addr :: rest, response, w =>
    let balance := (response.AccountBalance + addr.Balance) % 2 ^ 64
    match RetrieveTransactions aff addr.AddrKey w with
    | (Except.error e, w1) => (Except.error e, w1)
    | (Except.ok transactions, w1) =>
      let r := appendTransactions transactions ⟨addr.AddrKey, addr.Balance, []⟩
        response.TotalTransactionCount
      accountInfoLoop aff rest
        { AccountBalance := balance
          TotalTransactionCount := r.2
          Addresses := response.Addresses ++ [r.1] } w1

/-- Go `getAccountInfo` from `// Get account addresses` on (request decoding
and `validateAccount` precede it): the response written, or the error sent. -/
def getAccountInfo (aff : KeyAffinity) (username : String) (w : World) :
    Except Error getAccountInfoResponse × World :=
  match RetrieveAddresses username w with
  | (Except.error e, w1) => (Except.error e, w1)
  | (Except.ok addresses, w1) => accountInfoLoop aff addresses ⟨0, 0, []⟩ w1

/-! ## blockexplorers/blockchain.com/blockchainAPI.go -/

namespace blockchain

/-- Go constant `limitParam`. -/
def limitParam : Nat := 100

/-- Go `txJSON`. -/
structure txJSON where
  Hash : String
  BlockIndex : Nat
  Result : Int
deriving DecidableEq

/-- Go `rawaddrResponseJSON`. -/
structure rawaddrResponseJSON where
  FinalBalance : Nat
  Txs : List txJSON
deriving DecidableEq

/-- The request `client.Get(url)` followed by JSON decoding.  The URL is built
from the address, the limit and the offset, so the answer is a function of
these three. -/
abbrev Upstream := String → Nat → Nat → Except Error rawaddrResponseJSON

/-- The `for` loop of `BlockchainHandler.GetAddressData`, one request per unit
of fuel; `none` when the fuel is used up before the loop returns. -/
def GetAddressDataLoop (get : Upstream) (address : String) :
    Nat → Nat → List models.Transaction → Option (Except Error models.AddressData)
  | 0, _, _ => none
  | fuel + 1, offset, transactions =>
    match get address limitParam offset with
    | Except.error e => some (Except.error e)
    | Except.ok respJSON =>
      if respJSON.Txs.length = 0 then
        some (Except.ok ⟨address, respJSON.FinalBalance, transactions⟩)
      else
        GetAddressDataLoop get address fuel (offset + limitParam)
          (transactions ++ respJSON.Txs.map (fun tx => ⟨tx.Hash, tx.BlockIndex, tx.Result⟩))

/-- Go `BlockchainHandler.GetAddressData`: the loop started on an empty
transaction list. -/
def GetAddressData (get : Upstream) (fuel : Nat) (address : String) (offset : Nat) :
    Option (Except Error models.AddressData) :=
  GetAddressDataLoop get address fuel offset []

/-- An upstream source holding the finite ordered list `L`: a request with
limit `l` and offset `o` is answered with the slice `L[o : o+l]`, and with
the balance `bal o` current at that request. -/
def listUpstream (L : List txJSON) (bal : Nat → Nat) : Upstream :=
  fun _ limit offset => Except.ok ⟨bal offset, (L.drop offset).take limit⟩

/-- The `models.Transaction` built from a `txJSON`. -/
def toTransaction (tx : txJSON) : models.Transaction := ⟨tx.Hash, tx.BlockIndex, tx.Result⟩

end blockchain

/-! ## Observations used in the statements -/

/-- The row `InsertTransaction` writes for a delivered transaction, `key`
being the address as the `INT` column stores it. -/
def toRow (key : String) (tx : models.Transaction) : database.Transaction :=
  ⟨tx.Hash, tx.Block, tx.Result, key⟩

/-- Number of rows of table `transactions` that match `addrKey`, as
`CountTransactions` counts them. -/
def storedCount (aff : KeyAffinity) (db : Tables) (addrKey : String) : Nat :=
  (db.transactions.filter (fun t => decide (t.AddrKey = aff addrKey))).length

/-- The reading of a key by the `INT` column of SQLite, on the texts used in
the examples below: a text of decimal digits with at most 18 significant digits is
stored as that integer and given back in canonical decimal, a text without
any digit is stored as it is.  Texts outside these two classes (signs,
blanks, fractions, exponents, larger integers) are left as they are here and
are not used; the general statements take the affinity as a parameter. -/
def keyAffinity : KeyAffinity := fun s =>
  if s.data ≠ [] ∧ s.data.all Char.isDigit = true ∧
      (s.data.dropWhile (fun c => c == '0')).length ≤ 18 then
    match s.data.dropWhile (fun c => c == '0') with
    | [] => "0"
    | ds => String.mk ds
  else s

/-! ## Concrete stores and providers used in the examples -/

/-- The empty store, nothing scheduled. -/
def emptyWorld : World := ⟨⟨[], []⟩, [], [], 0, []⟩

/-- Store in which `B` is tracked with the transaction `h1` (a transfer that
also involves `A`). -/
def sharedWorld : World :=
  ⟨⟨[⟨"B", 200, "u"⟩], [⟨"h1", 1, -500, "B"⟩]⟩, [], [], 0, []⟩

/-- Provider answering for `A` at offset 0 with two transactions, the first
being the side of `h1` that concerns `A`. -/
def sharedProvider : BlockExplorerHandler := fun address offset =>
  if address = "A" ∧ offset = 0 then
    Except.ok ⟨"A", 700, [⟨"h1", 1, 500⟩, ⟨"h2", 2, 200⟩]⟩
  else Except.ok ⟨address, 700, []⟩

/-- Store in which `A` is tracked with one transaction; the driver fails on
the third store call, the `DeleteTransactions` of `removeAddress`. -/
def crashWorld : World :=
  ⟨⟨[⟨"A", 100, "u"⟩], [⟨"h0", 1, 100, "A"⟩]⟩, [false, false, true], [], 0, []⟩

/-- Store left by the `removeAddress "A"` whose `DeleteTransactions` failed. -/
def orphanWorld : World := (removeAddress keyAffinity "A" crashWorld).2

/-- Provider answering for `A` at offset 0 with the single transaction `h1`. -/
def singleProvider : BlockExplorerHandler := fun address offset =>
  if address = "A" ∧ offset = 0 then Except.ok ⟨"A", 500, [⟨"h1", 1, 500⟩]⟩
  else Except.ok ⟨address, 500, []⟩

/-- Provider answering for `A` at offset 0 with ten transactions `t0 … t9`. -/
def tenProvider : BlockExplorerHandler := fun address offset =>
  if address = "A" ∧ offset = 0 then
    Except.ok ⟨"A", 45, [⟨"t0", 0, 0⟩, ⟨"t1", 1, 1⟩, ⟨"t2", 2, 2⟩, ⟨"t3", 3, 3⟩, ⟨"t4", 4, 4⟩,
      ⟨"t5", 5, 5⟩, ⟨"t6", 6, 6⟩, ⟨"t7", 7, 7⟩, ⟨"t8", 8, 8⟩, ⟨"t9", 9, 9⟩]⟩
  else Except.ok ⟨address, 45, []⟩

/-- The answer of `tenProvider` for `A` at offset 0. -/
def tenData : models.AddressData :=
  ⟨"A", 45, [⟨"t0", 0, 0⟩, ⟨"t1", 1, 1⟩, ⟨"t2", 2, 2⟩, ⟨"t3", 3, 3⟩, ⟨"t4", 4, 4⟩,
    ⟨"t5", 5, 5⟩, ⟨"t6", 6, 6⟩, ⟨"t7", 7, 7⟩, ⟨"t8", 8, 8⟩, ⟨"t9", 9, 9⟩]⟩

/-- Store in which `A` and `B` are tracked; `h2`, a transfer between them, is
so far stored only under `B`. -/
def transferWorld : World :=
  ⟨⟨[⟨"A", 500, "u"⟩, ⟨"B", 0, "u"⟩], [⟨"h1", 1, 500, "A"⟩, ⟨"h2", 2, 200, "B"⟩]⟩,
    [], [], 0, []⟩

/-- Provider of the end-to-end scenario at the time of the add: balance 500,
one transaction `h1` of `+500`. -/
def scenarioProviderAdd : BlockExplorerHandler := fun address offset =>
  if address = "A" ∧ offset = 0 then Except.ok ⟨"A", 500, [⟨"h1", 1, 500⟩]⟩
  else Except.ok ⟨address, 500, []⟩

/-- Provider of the end-to-end scenario at the time of the refresh: balance
300, new transaction `h2` of `-200` at offset 1. -/
def scenarioProviderRefresh : BlockExplorerHandler := fun address offset =>
  if address = "A" ∧ offset = 1 then Except.ok ⟨"A", 300, [⟨"h2", 2, -200⟩]⟩
  else Except.ok ⟨address, 300, []⟩

/-- The store after `addAddress "A"` in the end-to-end scenario; the
collector does not run. -/
def scenarioWorld : World := (addAddress keyAffinity scenarioProviderAdd "A" "u" emptyWorld).2

/-- The same store, with a collector that finalizes abandoned cursors before
the second store call to come. -/
def scenarioWorldCollected : World := { scenarioWorld with gc := [false, true] }

/-- Provider reporting for `A` the balance `2 ^ 63` and, at offset 1, the new
transaction `h2`. -/
def hugeProvider : BlockExplorerHandler := fun address offset =>
  if address = "A" ∧ offset = 1 then
    Except.ok ⟨"A", 9223372036854775808, [⟨"h2", 2, 200⟩]⟩
  else Except.ok ⟨address, 9223372036854775808, []⟩

/-- Provider answering for `K` at offset 0 with two transactions. -/
def twiceProvider : BlockExplorerHandler := fun address offset =>
  if address = "K" ∧ offset = 0 then
    Except.ok ⟨"K", 30, [⟨"k1", 1, 10⟩, ⟨"k2", 2, 20⟩]⟩
  else Except.error (Error.provider "unavailable")

/-- Store in which another address is tracked. -/
def twiceWorld : World := ⟨⟨[⟨"J", 5, "ann"⟩], [⟨"j1", 1, 5, "J"⟩]⟩, [], [], 0, []⟩

/-- Provider delivering `h1` twice, then `h2`. -/
def redeliverProvider : BlockExplorerHandler := fun address _ =>
  Except.ok ⟨address, 700, [⟨"h1", 1, 500⟩, ⟨"h1", 1, 500⟩, ⟨"h2", 2, 200⟩]⟩

/-- Store in which `A` is tracked with no transaction yet; the driver fails
on the third store call, and the collector finalizes the cursor left by the
count before the second store call. -/
def faultyWorld : World :=
  ⟨⟨[⟨"A", 0, "u"⟩], []⟩, [false, false, true], [], 0, [false, true]⟩

/-- Provider delivering `h1`, `h2`, `h3`. -/
def threeProvider : BlockExplorerHandler := fun address _ =>
  Except.ok ⟨address, 600, [⟨"h1", 1, 100⟩, ⟨"h2", 2, 200⟩, ⟨"h3", 3, 300⟩]⟩

/-- Provider answering at offset 0 with one transaction named after the
address. -/
def ownProvider : BlockExplorerHandler := fun address offset =>
  if offset = 0 then Except.ok ⟨address, 10, [⟨"tx-" ++ address, 1, 10⟩]⟩
  else Except.ok ⟨address, 10, []⟩

/-- Store after `addAddress "7"` for `u` and `addAddress "07"` for `v`, each
with its own transaction. -/
def aliasWorld : World :=
  (addAddress keyAffinity ownProvider "07" "v"
    (addAddress keyAffinity ownProvider "7" "u" emptyWorld).2).2

/-- Store with two tracked addresses and their transactions. -/
def twoWorld : World :=
  ⟨⟨[⟨"A", 500, "u"⟩, ⟨"B", 70, "v"⟩],
    [⟨"a1", 1, 500, "A"⟩, ⟨"b1", 2, 70, "B"⟩, ⟨"a2", 3, 0, "A"⟩]⟩, [], [], 0, []⟩

/-- Provider that is unavailable. -/
def downProvider : BlockExplorerHandler := fun _ _ => Except.error (Error.provider "timeout")

/-- Provider reporting balance 999 and no transaction at any offset. -/
def quietProvider : BlockExplorerHandler := fun address _ => Except.ok ⟨address, 999, []⟩

/-- A source of 250 transactions, numbered by block. -/
def upstream250 : List blockchain.txJSON :=
  (List.range 250).map (fun i => ⟨"tx", i, 1⟩)

/-- Three addresses of account `u`, each holding `2 ^ 63 - 1`. -/
def wrapWorld : World :=
  ⟨⟨[⟨"A", 9223372036854775807, "u"⟩, ⟨"B", 9223372036854775807, "u"⟩,
      ⟨"C", 9223372036854775807, "u"⟩], []⟩, [], [], 0, []⟩

/-- Two addresses of account `u` and one of account `v`. -/
def reportWorld : World :=
  ⟨⟨[⟨"A", 500, "u"⟩, ⟨"B", 70, "u"⟩, ⟨"C", 9, "v"⟩],
    [⟨"h1", 1, 500, "A"⟩, ⟨"h2", 2, 50, "B"⟩, ⟨"h3", 3, 20, "B"⟩, ⟨"h4", 3, 9, "C"⟩]⟩,
    [], [], 0, []⟩

/-- Store after `addAddress "7"` and `addAddress "07"`, both for `u`, each
with its own transaction. -/
def aliasAccountWorld : World :=
  (addAddress keyAffinity ownProvider "07" "u"
    (addAddress keyAffinity ownProvider "7" "u" emptyWorld).2).2

/-! ## Auxiliary lemmas -/

@[simp] theorem collect_db (w : World) : (collect w).db = w.db := by
  unfold collect; split <;> rfl

@[simp] theorem collect_calls (w : World) : (collect w).calls = w.calls := by
  unfold collect; split <;> rfl

@[simp] theorem collect_faults (w : World) : (collect w).faults = w.faults := by
  unfold collect; split <;> rfl

theorem collect_cursors_zero {w : World} (h : w.cursors = 0) : (collect w).cursors = 0 := by
  unfold collect
  split
  · exact h
  · simp [h]

@[simp] theorem nextFault_db (w : World) : (nextFault w).2.db = w.db := by
  unfold nextFault; split <;> rfl

@[simp] theorem nextFault_calls (w : World) : (nextFault w).2.calls = w.calls := by
  unfold nextFault; split <;> rfl

@[simp] theorem nextFault_cursors (w : World) : (nextFault w).2.cursors = w.cursors := by
  unfold nextFault; split <;> rfl

@[simp] theorem enter_db (w : World) : (enter w).2.db = w.db := by
  simp [enter]

@[simp] theorem enter_calls (w : World) : (enter w).2.calls = w.calls := by
  simp [enter]

@[simp] theorem enter_cursors (w : World) : (enter w).2.cursors = (collect w).cursors := by
  simp [enter]

theorem enter_of_nil_faults {w : World} (h : w.faults = []) :
    (enter w).1 = false ∧ (enter w).2.faults = [] := by
  have hc : (collect w).faults = [] := by simp [h]
  unfold enter nextFault
  rw [hc]
  exact ⟨rfl, hc⟩

theorem enter_fst_false {w : World} (h : w.faults.head? ≠ some true) :
    (enter w).1 = false := by
  have hc : (collect w).faults = w.faults := collect_faults w
  unfold enter nextFault
  split
  · rfl
  · next f fs hf =>
    rw [hc] at hf
    rw [hf] at h
    cases f
    · rfl
    · simp at h

theorem find?_addr_none {l : List database.Address} {address : String}
    (h : ∀ a ∈ l, a.AddrKey ≠ address) :
    l.find? (fun a => decide (a.AddrKey = address)) = none := by
  rw [List.find?_eq_none]
  intro a ha
  simpa using h a ha

theorem find?_addr_some {l : List database.Address} {address : String}
    (h : ∃ a ∈ l, a.AddrKey = address) :
    ∃ a, l.find? (fun a => decide (a.AddrKey = address)) = some a := by
  cases hf : l.find? (fun a => decide (a.AddrKey = address)) with
  | some a => exact ⟨a, rfl⟩
  | none =>
    rw [List.find?_eq_none] at hf
    obtain ⟨a, ha, hk⟩ := h
    exact absurd hk (by simpa using hf a ha)

/-! ### Frames of the store calls -/

theorem RetrieveAddress_frame (address : String) (w : World) :
    (RetrieveAddress address w).2.db = w.db ∧ (RetrieveAddress address w).2.calls = w.calls := by
  unfold RetrieveAddress
  simp only
  split_ifs
  · simp
  · split <;> simp

theorem RetrieveAddress_inv_noRows {address : String} {w w1 : World}
    (h : RetrieveAddress address w = (Except.error Error.ErrNoRows, w1)) :
    (∀ a ∈ w.db.addresses, a.AddrKey ≠ address) ∧ w1.db = w.db ∧ w1.calls = w.calls := by
  unfold RetrieveAddress at h
  simp only at h
  split_ifs at h with h1
  · simp at h
  · split at h
    · next hf =>
      simp only [Prod.mk.injEq, true_and] at h
      subst h
      refine ⟨?_, by simp, by simp⟩
      rw [List.find?_eq_none] at hf
      intro a ha
      simpa using hf a (by simpa using ha)
    · simp at h

theorem DeleteAddress_cases (address : String) (w : World) :
    ((DeleteAddress address w).1 ≠ none ∧ (DeleteAddress address w).2.db = w.db) ∨
    ((DeleteAddress address w).1 = none ∧
      (DeleteAddress address w).2.db =
        ⟨w.db.addresses.filter (fun a => decide (a.AddrKey ≠ address)), w.db.transactions⟩) := by
  unfold DeleteAddress
  simp only
  split_ifs <;> simp

theorem DeleteTransactions_cases (aff : KeyAffinity) (address : String) (w : World) :
    ((DeleteTransactions aff address w).1 ≠ none ∧ (DeleteTransactions aff address w).2.db = w.db) ∨
    ((DeleteTransactions aff address w).1 = none ∧
      (DeleteTransactions aff address w).2.db =
        ⟨w.db.addresses,
          w.db.transactions.filter (fun t => decide (t.AddrKey ≠ aff address))⟩) := by
  unfold DeleteTransactions
  simp only
  split_ifs <;> simp

theorem InsertAddress_inv_none {address username : String} {balance : Nat} {w w1 : World}
    (h : InsertAddress address balance username w = (none, w1)) :
    w1.db.addresses = w.db.addresses ++ [⟨address, balance, username⟩] ∧
    w1.db.transactions = w.db.transactions ∧ w1.calls = w.calls := by
  unfold InsertAddress at h
  simp only at h
  split_ifs at h
  all_goals first
    | (simp only [Prod.mk.injEq, true_and] at h
       subst h
       simp)
    | simp at h

theorem InsertTransaction_frame (aff : KeyAffinity) (h : String) (b : Nat) (r : Int)
    (address : String) (w : World) :
    (InsertTransaction aff h b r address w).2.db.addresses = w.db.addresses ∧
    (InsertTransaction aff h b r address w).2.calls = w.calls := by
  unfold InsertTransaction
  simp only
  split_ifs <;> simp

theorem InsertTransaction_nodup (aff : KeyAffinity) (h : String) (b : Nat) (r : Int)
    (address : String) (w : World)
    (hn : (w.db.transactions.map (fun t => t.TxHash)).Nodup) :
    ((InsertTransaction aff h b r address w).2.db.transactions.map (fun t => t.TxHash)).Nodup := by
  unfold InsertTransaction
  simp only
  split_ifs with h1 h2 h3
  · simpa using hn
  · simpa using hn
  · simpa using hn
  · simp only [enter_db, List.map_append, List.map_cons, List.map_nil]
    rw [List.nodup_append]
    refine ⟨hn, List.nodup_singleton _, ?_⟩
    intro x hx hx2
    simp only [List.mem_singleton] at hx2
    subst hx2
    simp only [List.mem_map] at hx
    obtain ⟨t, ht, hth⟩ := hx
    exact h2 ⟨t, by simpa using ht, hth⟩

theorem insertTransactions_frame (aff : KeyAffinity) (address : String) :
    ∀ (txs : List models.Transaction) (err : Option Error) (w : World),
      (insertTransactions aff address txs err w).2.db.addresses = w.db.addresses ∧
      (insertTransactions aff address txs err w).2.calls = w.calls := by
  intro txs
  induction txs with
  | nil => intro err w; simp [insertTransactions]
  | cons tx rest ih =>
    intro err w
    simp only [insertTransactions]
    obtain ⟨h1, h2⟩ := ih (InsertTransaction aff tx.Hash tx.Block tx.Result address w).1
      (InsertTransaction aff tx.Hash tx.Block tx.Result address w).2
    obtain ⟨h3, h4⟩ := InsertTransaction_frame aff tx.Hash tx.Block tx.Result address w
    exact ⟨h1.trans h3, h2.trans h4⟩

theorem insertTransactions_nodup (aff : KeyAffinity) (address : String) :
    ∀ (txs : List models.Transaction) (err : Option Error) (w : World),
      (w.db.transactions.map (fun t => t.TxHash)).Nodup →
      ((insertTransactions aff address txs err w).2.db.transactions.map
        (fun t => t.TxHash)).Nodup := by
  intro txs
  induction txs with
  | nil => intro err w hn; simpa [insertTransactions] using hn
  | cons tx rest ih =>
    intro err w hn
    simp only [insertTransactions]
    exact ih _ _ (InsertTransaction_nodup aff tx.Hash tx.Block tx.Result address w hn)

/-! ### The store calls when nothing fails -/

theorem InsertTransaction_quiet (aff : KeyAffinity) (h : String) (b : Nat) (r : Int)
    (address : String) (w : World)
    (hf : w.faults = []) (hc : (collect w).cursors = 0)
    (hno : ¬ ∃ t ∈ w.db.transactions, t.TxHash = h) :
    (InsertTransaction aff h b r address w).1 = none ∧
    (InsertTransaction aff h b r address w).2.db =
      ⟨w.db.addresses, w.db.transactions ++ [⟨h, b, r, aff address⟩]⟩ ∧
    (InsertTransaction aff h b r address w).2.faults = [] ∧
    (InsertTransaction aff h b r address w).2.cursors = 0 ∧
    (InsertTransaction aff h b r address w).2.calls = w.calls := by
  obtain ⟨he1, he2⟩ := enter_of_nil_faults hf
  unfold InsertTransaction
  simp only [he1, enter_db, enter_cursors, hc, hno, Bool.false_eq_true, ↓reduceIte,
    Nat.lt_irrefl, he2, enter_calls, and_self]

theorem InsertAddress_quiet (address username : String) (balance : Nat) (w : World)
    (hf : w.faults = []) (hc : (collect w).cursors = 0) (hb : balance < 2 ^ 63)
    (hno : ∀ a ∈ w.db.addresses, a.AddrKey ≠ address) :
    (InsertAddress address balance username w).1 = none ∧
    (InsertAddress address balance username w).2.db =
      ⟨w.db.addresses ++ [⟨address, balance, username⟩], w.db.transactions⟩ ∧
    (InsertAddress address balance username w).2.faults = [] ∧
    (InsertAddress address balance username w).2.cursors = 0 ∧
    (InsertAddress address balance username w).2.calls = w.calls := by
  obtain ⟨he1, he2⟩ := enter_of_nil_faults hf
  have hno2 : ¬ ∃ a ∈ w.db.addresses, a.AddrKey = address := by
    rintro ⟨a, ha, hk⟩
    exact hno a ha hk
  have hb2 : ¬ 2 ^ 63 ≤ balance := Nat.not_le.mpr hb
  unfold InsertAddress
  simp only [he1, enter_db, enter_cursors, hc, hno2, hb2, Bool.false_eq_true, ↓reduceIte,
    Nat.lt_irrefl, he2, enter_calls, and_self]

theorem UpdateAddressBalance_quiet (address : String) (balance : Nat) (w : World)
    (hf : w.faults = []) (hc : (collect w).cursors = 0) (hb : balance < 2 ^ 63) :
    (UpdateAddressBalance address balance w).1 = none ∧
    (UpdateAddressBalance address balance w).2.db =
      ⟨w.db.addresses.map
          (fun a => if a.AddrKey = address then { a with Balance := balance } else a),
        w.db.transactions⟩ ∧
    (UpdateAddressBalance address balance w).2.faults = [] ∧
    (UpdateAddressBalance address balance w).2.calls = w.calls := by
  obtain ⟨he1, he2⟩ := enter_of_nil_faults hf
  have hb2 : ¬ 2 ^ 63 ≤ balance := Nat.not_le.mpr hb
  unfold UpdateAddressBalance
  simp only [he1, enter_db, enter_cursors, hc, hb2, Bool.false_eq_true, ↓reduceIte,
    Nat.lt_irrefl, and_false, he2, enter_calls, and_self]

theorem RetrieveAddress_quiet (address : String) (w : World) (hf : w.faults = []) :
    (RetrieveAddress address w).1 =
      (match w.db.addresses.find? (fun a => decide (a.AddrKey = address)) with
        | none => Except.error Error.ErrNoRows
        | some a => Except.ok a) ∧
    (RetrieveAddress address w).2.db = w.db ∧
    (RetrieveAddress address w).2.faults = [] ∧
    (RetrieveAddress address w).2.cursors = (collect w).cursors ∧
    (RetrieveAddress address w).2.calls = w.calls := by
  obtain ⟨he1, he2⟩ := enter_of_nil_faults hf
  unfold RetrieveAddress
  simp only [he1, enter_db, Bool.false_eq_true, ↓reduceIte]
  split <;> simp [he2]

theorem CountTransactions_quiet (aff : KeyAffinity) (address : String) (w : World)
    (hf : w.faults = []) :
    (CountTransactions aff address w).1 = Except.ok (storedCount aff w.db address) ∧
    (CountTransactions aff address w).2.db = w.db ∧
    (CountTransactions aff address w).2.faults = [] ∧
    (CountTransactions aff address w).2.calls = w.calls ∧
    (CountTransactions aff address w).2.gc = w.gc.tail := by
  obtain ⟨he1, he2⟩ := enter_of_nil_faults hf
  unfold CountTransactions
  simp only [he1, enter_db, Bool.false_eq_true, ↓reduceIte, storedCount, he2, enter_calls,
    true_and]
  unfold enter nextFault collect
  split <;> split <;> simp_all

/-- With no scheduled failure and no cursor open at the first insert,
transactions whose hashes are pairwise distinct and not yet stored are all
inserted, in order. -/
theorem insertTransactions_fresh (aff : KeyAffinity) (address : String) :
    ∀ (txs : List models.Transaction) (err : Option Error) (w : World),
      w.faults = [] → (collect w).cursors = 0 →
      (txs.map (fun tx => tx.Hash)).Nodup →
      (∀ tx ∈ txs, ∀ t ∈ w.db.transactions, t.TxHash ≠ tx.Hash) →
      (insertTransactions aff address txs err w).1 = (if txs = [] then err else none) ∧
      (insertTransactions aff address txs err w).2.db =
        ⟨w.db.addresses, w.db.transactions ++ txs.map (toRow (aff address))⟩ ∧
      (insertTransactions aff address txs err w).2.faults = [] ∧
      (collect (insertTransactions aff address txs err w).2).cursors = 0 ∧
      (insertTransactions aff address txs err w).2.calls = w.calls := by
  intro txs
  induction txs with
  | nil => intro err w hf hc _ _; simp [insertTransactions, hf, hc]
  | cons tx rest ih =>
    intro err w hf hc hnd hfresh
    rw [List.map_cons, List.nodup_cons] at hnd
    have hno : ¬ ∃ t ∈ w.db.transactions, t.TxHash = tx.Hash := by
      rintro ⟨t, ht, hth⟩
      exact hfresh tx (List.mem_cons_self _ _) t ht hth
    obtain ⟨s1, s2, s3, s4, s5⟩ :=
      InsertTransaction_quiet aff tx.Hash tx.Block tx.Result address w hf hc hno
    simp only [insertTransactions]
    obtain ⟨i1, i2, i3, i4, i5⟩ := ih
      (InsertTransaction aff tx.Hash tx.Block tx.Result address w).1
      (InsertTransaction aff tx.Hash tx.Block tx.Result address w).2
      s3 (collect_cursors_zero s4) hnd.2
      (by
        intro tx2 htx2 t ht
        rw [s2] at ht
        simp only [List.mem_append, List.mem_singleton] at ht
        rcases ht with ht | ht
        · exact hfresh tx2 (List.mem_cons_of_mem _ htx2) t ht
        · subst ht
          intro heq
          apply hnd.1
          simp only [List.mem_map]
          exact ⟨tx2, htx2, heq.symm⟩)
    refine ⟨?_, ?_, i3, i4, ?_⟩
    · rw [i1, s1]; simp
    · rw [i2, s2]; simp [toRow]
    · rw [i5, s5]

theorem count_append_rows (key : String) (l : List database.Transaction)
    (txs : List models.Transaction) :
    ((l ++ txs.map (toRow key)).filter (fun t => decide (t.AddrKey = key))).length =
      (l.filter (fun t => decide (t.AddrKey = key))).length + txs.length := by
  rw [List.filter_append, List.length_append]
  congr 1
  rw [List.filter_eq_self.mpr, List.length_map]
  intro t ht
  simp only [List.mem_map] at ht
  obtain ⟨tx, _, rfl⟩ := ht
  simp [toRow]

/-! ### The engine operations -/

theorem addAddress_added_aux {aff : KeyAffinity} {beh : BlockExplorerHandler}
    {address username : String} {w w2 : World} {r : Bool × Option Error}
    (h : addAddress aff beh address username w = (r, w2)) (hr : r = (true, none)) :
    ∃ d, beh address 0 = Except.ok d ∧
      (∀ a ∈ w.db.addresses, a.AddrKey ≠ address) ∧
      w2.db.addresses = w.db.addresses ++ [⟨address, d.Balance, username⟩] ∧
      w2.calls = w.calls ++ [(address, 0)] ∧
      ((w.db.transactions.map (fun t => t.TxHash)).Nodup →
        (w2.db.transactions.map (fun t => t.TxHash)).Nodup) := by
  subst hr
  unfold addAddress at h
  split at h
  · simp at h
  · next e w1 h1 =>
    split_ifs at h with he
    · simp at h
    · simp only [ne_eq, not_not] at he
      subst he
      obtain ⟨hu, hdb1, hc1⟩ := RetrieveAddress_inv_noRows h1
      simp only [GetAddressData] at h
      cases hp : beh address 0 with
      | error e2 => simp [hp] at h
      | ok d =>
        simp only [hp] at h
        refine ⟨d, rfl, hu, ?_⟩
        split at h
        · simp at h
        · next w3 h3 =>
          obtain ⟨ha3, ht3, hc3⟩ := InsertAddress_inv_none h3
          simp only at ha3 ht3 hc3
          obtain ⟨hfa, hfc⟩ := insertTransactions_frame aff address d.Transactions none w3
          have hfn := insertTransactions_nodup aff address d.Transactions none w3
          split at h
          · simp at h
          · next w4 h4 =>
            rw [h4] at hfa hfc hfn
            simp only [Prod.mk.injEq, true_and] at h
            subst h
            simp only at hfa hfc hfn
            refine ⟨?_, ?_, ?_⟩
            · rw [hfa, ha3, hdb1]
            · rw [hfc, hc3, hc1]
            · intro hn
              apply hfn
              rw [ht3, hdb1]
              exact hn

/-- What a run of `addAddress` that reports `added` has done. -/
theorem addAddress_added {aff : KeyAffinity} {beh : BlockExplorerHandler}
    {address username : String} {w : World}
    (h : (addAddress aff beh address username w).1 = (true, none)) :
    ∃ d, beh address 0 = Except.ok d ∧
      (∀ a ∈ w.db.addresses, a.AddrKey ≠ address) ∧
      (addAddress aff beh address username w).2.db.addresses =
        w.db.addresses ++ [⟨address, d.Balance, username⟩] ∧
      (addAddress aff beh address username w).2.calls = w.calls ++ [(address, 0)] ∧
      ((w.db.transactions.map (fun t => t.TxHash)).Nodup →
        ((addAddress aff beh address username w).2.db.transactions.map
          (fun t => t.TxHash)).Nodup) :=
  addAddress_added_aux (r := (addAddress aff beh address username w).1) rfl h

theorem addAddress_tracked (aff : KeyAffinity) (beh : BlockExplorerHandler)
    (address username : String) (w : World)
    (ht : ∃ a ∈ w.db.addresses, a.AddrKey = address) (hf : w.faults.head? ≠ some true) :
    addAddress aff beh address username w = ((false, none), (enter w).2) := by
  obtain ⟨a, ha⟩ := find?_addr_some ht
  have h1 := enter_fst_false hf
  simp [addAddress, RetrieveAddress, h1, ha]

/-- The run of `addAddress` on an untracked address when nothing fails and
the delivered hashes are fresh. -/
theorem addAddress_fresh (aff : KeyAffinity) (beh : BlockExplorerHandler)
    (address username : String) (w : World) (d : models.AddressData)
    (hf : w.faults = []) (hc : w.cursors = 0)
    (hu : ∀ a ∈ w.db.addresses, a.AddrKey ≠ address)
    (hp : beh address 0 = Except.ok d)
    (hb : d.Balance < 2 ^ 63)
    (hnd : (d.Transactions.map (fun tx => tx.Hash)).Nodup)
    (hfresh : ∀ tx ∈ d.Transactions, ∀ t ∈ w.db.transactions, t.TxHash ≠ tx.Hash) :
    (addAddress aff beh address username w).1 = (true, none) ∧
    (addAddress aff beh address username w).2.db =
      ⟨w.db.addresses ++ [⟨address, d.Balance, username⟩],
        w.db.transactions ++ d.Transactions.map (toRow (aff address))⟩ ∧
    (addAddress aff beh address username w).2.faults = [] ∧
    (addAddress aff beh address username w).2.calls = w.calls ++ [(address, 0)] := by
  obtain ⟨r1, r2, r3, r4, r5⟩ := RetrieveAddress_quiet address w hf
  rw [find?_addr_none hu] at r1
  simp only at r1
  have hc1 : (RetrieveAddress address w).2.cursors = 0 := by
    rw [r4]; exact collect_cursors_zero hc
  -- the world handed to `InsertAddress`
  have hw2f : ({ (RetrieveAddress address w).2 with
      calls := (RetrieveAddress address w).2.calls ++ [(address, 0)] } : World).faults = [] := r3
  have hw2c : (collect ({ (RetrieveAddress address w).2 with
      calls := (RetrieveAddress address w).2.calls ++ [(address, 0)] } : World)).cursors = 0 :=
    collect_cursors_zero hc1
  obtain ⟨a1, a2, a3, a4, a5⟩ := InsertAddress_quiet address username d.Balance
    { (RetrieveAddress address w).2 with
      calls := (RetrieveAddress address w).2.calls ++ [(address, 0)] } hw2f hw2c hb
    (by simpa [r2] using hu)
  obtain ⟨i1, i2, i3, _, i5⟩ := insertTransactions_fresh aff address d.Transactions none
    (InsertAddress address d.Balance username
      { (RetrieveAddress address w).2 with
        calls := (RetrieveAddress address w).2.calls ++ [(address, 0)] }).2
    a3 (collect_cursors_zero a4) hnd
    (by
      intro tx htx t ht
      rw [a2] at ht
      simp only [r2] at ht
      exact hfresh tx htx t ht)
  simp only [ite_self] at i1
  have hrun : addAddress aff beh address username w =
      ((true, none), (insertTransactions aff address d.Transactions none
        (InsertAddress address d.Balance username
          { (RetrieveAddress address w).2 with
            calls := (RetrieveAddress address w).2.calls ++ [(address, 0)] }).2).2) := by
    unfold addAddress
    rw [show RetrieveAddress address w =
      ((RetrieveAddress address w).1, (RetrieveAddress address w).2) from rfl, r1]
    simp only [ne_eq, not_true_eq_false, ↓reduceIte, GetAddressData, hp]
    rw [show InsertAddress address d.Balance username
        { (RetrieveAddress address w).2 with
          calls := (RetrieveAddress address w).2.calls ++ [(address, 0)] } =
      ((InsertAddress address d.Balance username
        { (RetrieveAddress address w).2 with
          calls := (RetrieveAddress address w).2.calls ++ [(address, 0)] }).1,
       (InsertAddress address d.Balance username
        { (RetrieveAddress address w).2 with
          calls := (RetrieveAddress address w).2.calls ++ [(address, 0)] }).2) from rfl, a1]
    simp only
    rw [show insertTransactions aff address d.Transactions none
        (InsertAddress address d.Balance username
          { (RetrieveAddress address w).2 with
            calls := (RetrieveAddress address w).2.calls ++ [(address, 0)] }).2 =
      ((insertTransactions aff address d.Transactions none
        (InsertAddress address d.Balance username
          { (RetrieveAddress address w).2 with
            calls := (RetrieveAddress address w).2.calls ++ [(address, 0)] }).2).1,
       (insertTransactions aff address d.Transactions none
        (InsertAddress address d.Balance username
          { (RetrieveAddress address w).2 with
            calls := (RetrieveAddress address w).2.calls ++ [(address, 0)] }).2).2) from rfl, i1]
  rw [hrun]
  refine ⟨rfl, ?_, i3, ?_⟩
  · simp only
    rw [i2, a2]
    simp [r2]
  · simp only
    rw [i5, a5]
    simp [r5]

theorem collect_cursors_of_gc_true {w : World} {rest : List Bool} (h : w.gc = true :: rest) :
    (collect w).cursors = 0 := by
  unfold collect
  rw [h]
  simp

/-- The run of `updateAddress` when nothing fails, the cursor left by the
count is finalized before the first insert, and the delivered hashes are
fresh. -/
theorem updateAddress_fresh (aff : KeyAffinity) (beh : BlockExplorerHandler) (address : String)
    (w : World) (d : models.AddressData) (g0 : Bool) (rest : List Bool)
    (hf : w.faults = []) (hgc : w.gc = g0 :: true :: rest)
    (hp : beh address (storedCount aff w.db address) = Except.ok d)
    (hk : d.Transactions ≠ [])
    (hb : d.Balance < 2 ^ 63)
    (hnd : (d.Transactions.map (fun tx => tx.Hash)).Nodup)
    (hfresh : ∀ tx ∈ d.Transactions, ∀ t ∈ w.db.transactions, t.TxHash ≠ tx.Hash) :
    (updateAddress aff beh address w).1 = (true, none) ∧
    (updateAddress aff beh address w).2.db =
      ⟨w.db.addresses.map
          (fun a => if a.AddrKey = address then { a with Balance := d.Balance } else a),
        w.db.transactions ++ d.Transactions.map (toRow (aff address))⟩ ∧
    (updateAddress aff beh address w).2.faults = [] ∧
    (updateAddress aff beh address w).2.calls =
      w.calls ++ [(address, storedCount aff w.db address)] := by
  obtain ⟨c1, c2, c3, c4, c5⟩ := CountTransactions_quiet aff address w hf
  have hgc1 : (CountTransactions aff address w).2.gc = true :: rest := by
    rw [c5, hgc]; rfl
  have hw2c : (collect ({ (CountTransactions aff address w).2 with
      calls := (CountTransactions aff address w).2.calls ++
        [(address, storedCount aff w.db address)] } : World)).cursors = 0 :=
    collect_cursors_of_gc_true hgc1
  have hw2f : ({ (CountTransactions aff address w).2 with
      calls := (CountTransactions aff address w).2.calls ++
        [(address, storedCount aff w.db address)] } : World).faults = [] := c3
  obtain ⟨i1, i2, i3, i4, i5⟩ := insertTransactions_fresh aff address d.Transactions none
    { (CountTransactions aff address w).2 with
      calls := (CountTransactions aff address w).2.calls ++
        [(address, storedCount aff w.db address)] } hw2f hw2c hnd
    (by
      intro tx htx t ht
      simp only [c2] at ht
      exact hfresh tx htx t ht)
  simp only [ite_self] at i1
  obtain ⟨u1, u2, u3, u4⟩ := UpdateAddressBalance_quiet address d.Balance
    (insertTransactions aff address d.Transactions none
      { (CountTransactions aff address w).2 with
        calls := (CountTransactions aff address w).2.calls ++
          [(address, storedCount aff w.db address)] }).2 i3 i4 hb
  have hlen : 0 < d.Transactions.length := List.length_pos.mpr hk
  have hrun : updateAddress aff beh address w =
      ((true, none), (UpdateAddressBalance address d.Balance
        (insertTransactions aff address d.Transactions none
          { (CountTransactions aff address w).2 with
            calls := (CountTransactions aff address w).2.calls ++
              [(address, storedCount aff w.db address)] }).2).2) := by
    unfold updateAddress
    rw [show CountTransactions aff address w =
      ((CountTransactions aff address w).1, (CountTransactions aff address w).2) from rfl, c1]
    simp only [GetAddressData, hp, gt_iff_lt, hlen, ↓reduceIte]
    rw [show insertTransactions aff address d.Transactions none
        { (CountTransactions aff address w).2 with
          calls := (CountTransactions aff address w).2.calls ++
            [(address, storedCount aff w.db address)] } =
      ((insertTransactions aff address d.Transactions none
        { (CountTransactions aff address w).2 with
          calls := (CountTransactions aff address w).2.calls ++
            [(address, storedCount aff w.db address)] }).1,
       (insertTransactions aff address d.Transactions none
        { (CountTransactions aff address w).2 with
          calls := (CountTransactions aff address w).2.calls ++
            [(address, storedCount aff w.db address)] }).2) from rfl, i1]
    simp only
    rw [show UpdateAddressBalance address d.Balance
        (insertTransactions aff address d.Transactions none
          { (CountTransactions aff address w).2 with
            calls := (CountTransactions aff address w).2.calls ++
              [(address, storedCount aff w.db address)] }).2 =
      ((UpdateAddressBalance address d.Balance
        (insertTransactions aff address d.Transactions none
          { (CountTransactions aff address w).2 with
            calls := (CountTransactions aff address w).2.calls ++
              [(address, storedCount aff w.db address)] }).2).1,
       (UpdateAddressBalance address d.Balance
        (insertTransactions aff address d.Transactions none
          { (CountTransactions aff address w).2 with
            calls := (CountTransactions aff address w).2.calls ++
              [(address, storedCount aff w.db address)] }).2).2) from rfl, u1]
  rw [hrun]
  refine ⟨rfl, ?_, u3, ?_⟩
  · simp only
    rw [u2, i2]
    simp [c2]
  · simp only
    rw [u4, i5]
    simp [c4]

theorem CountTransactions_inv_ok {aff : KeyAffinity} {address : String} {w w1 : World}
    {count : Nat} (h : CountTransactions aff address w = (Except.ok count, w1)) :
    count = storedCount aff w.db address ∧ w1.db = w.db ∧ w1.calls = w.calls := by
  unfold CountTransactions at h
  simp only at h
  split_ifs at h
  · simp at h
  · simp only [Prod.mk.injEq, Except.ok.injEq] at h
    obtain ⟨h1, h2⟩ := h
    subst h2
    simp [storedCount, ← h1]

theorem CountTransactions_inv_error {aff : KeyAffinity} {address : String} {w w1 : World}
    {e : Error} (h : CountTransactions aff address w = (Except.error e, w1)) :
    w.faults.head? = some true ∧ w1.db = w.db := by
  unfold CountTransactions at h
  simp only at h
  split_ifs at h with h1
  · simp only [Prod.mk.injEq] at h
    refine ⟨?_, by rw [← h.2]; simp⟩
    by_contra hne
    rw [enter_fst_false hne] at h1
    simp at h1
  · simp at h

theorem UpdateAddressBalance_calls (address : String) (b : Nat) (w : World) :
    (UpdateAddressBalance address b w).2.calls = w.calls := by
  unfold UpdateAddressBalance
  simp only
  split_ifs <;> simp

theorem updateAddress_calls_aux {aff : KeyAffinity} {beh : BlockExplorerHandler}
    {address : String} {w w2 : World} {r : Bool × Option Error}
    (h : updateAddress aff beh address w = (r, w2)) (hf : w.faults.head? ≠ some true) :
    w2.calls = w.calls ++ [(address, storedCount aff w.db address)] := by
  unfold updateAddress at h
  split at h
  · next e w1 h1 => exact absurd (CountTransactions_inv_error h1).1 hf
  · next count w1 h1 =>
    obtain ⟨hc, _, hcalls⟩ := CountTransactions_inv_ok h1
    subst hc
    simp only [GetAddressData] at h
    split at h
    · next e2 w3 h2 =>
      simp only [Prod.mk.injEq] at h h2
      rw [← h.2, ← h2.2, hcalls]
    · next d w3 h2 =>
      simp only [Prod.mk.injEq] at h2
      have hw3 : w3.calls = w.calls ++ [(address, storedCount aff w.db address)] := by
        rw [← h2.2, hcalls]
      split_ifs at h
      · have hfr := (insertTransactions_frame aff address d.Transactions none w3).2
        split at h
        · next e3 w4 h3 =>
          rw [h3] at hfr
          simp only [Prod.mk.injEq] at h
          rw [← h.2, hfr, hw3]
        · next w4 h3 =>
          rw [h3] at hfr
          have hub := UpdateAddressBalance_calls address d.Balance w4
          split at h
          · next e4 w5 h4 =>
            rw [h4] at hub
            simp only [Prod.mk.injEq] at h
            rw [← h.2, hub, hfr, hw3]
          · next w5 h4 =>
            rw [h4] at hub
            simp only [Prod.mk.injEq] at h
            rw [← h.2, hub, hfr, hw3]
      · simp only [Prod.mk.injEq] at h
        rw [← h.2, hw3]

/-- Unless the count query fails, `updateAddress` asks the provider exactly
once, at the offset given by the stored transaction count. -/
theorem updateAddress_calls (aff : KeyAffinity) (beh : BlockExplorerHandler) (address : String)
    (w : World) (hf : w.faults.head? ≠ some true) :
    (updateAddress aff beh address w).2.calls =
      w.calls ++ [(address, storedCount aff w.db address)] :=
  updateAddress_calls_aux (r := (updateAddress aff beh address w).1) rfl hf

theorem removeAddress_cases_aux {aff : KeyAffinity} {address : String} {w w2 : World}
    {r : Bool × Option Error} (h : removeAddress aff address w = (r, w2)) :
    w2.db = w.db ∨
    w2.db = ⟨w.db.addresses.filter (fun a => decide (a.AddrKey ≠ address)),
      w.db.transactions⟩ ∨
    w2.db = ⟨w.db.addresses.filter (fun a => decide (a.AddrKey ≠ address)),
      w.db.transactions.filter (fun t => decide (t.AddrKey ≠ aff address))⟩ := by
  have hr := (RetrieveAddress_frame address w).1
  unfold removeAddress at h
  split at h
  · next e w1 h1 =>
    rw [h1] at hr
    simp only at hr
    left
    split_ifs at h <;>
    · simp only [Prod.mk.injEq] at h
      rw [← h.2, hr]
  · next a w1 h1 =>
    rw [h1] at hr
    simp only at hr
    have hd := DeleteAddress_cases address w1
    split at h
    · next e2 w3 h2 =>
      rw [h2] at hd
      simp only [ne_eq, not_true_eq_false, false_and, or_false, reduceCtorEq] at hd
      left
      simp only [Prod.mk.injEq] at h
      rw [← h.2, hd.2, hr]
    · next w3 h2 =>
      rw [h2] at hd
      simp only [ne_eq, not_true_eq_false, false_and, false_or, true_and] at hd
      have hdt := DeleteTransactions_cases aff address w3
      split at h
      · next e3 w4 h3 =>
        rw [h3] at hdt
        simp only [ne_eq, not_true_eq_false, false_and, or_false, reduceCtorEq] at hdt
        right; left
        simp only [Prod.mk.injEq] at h
        rw [← h.2, hdt.2, hd, hr]
      · next w4 h3 =>
        rw [h3] at hdt
        simp only [ne_eq, not_true_eq_false, false_and, false_or, true_and] at hdt
        right; right
        simp only [Prod.mk.injEq] at h
        rw [← h.2, hdt, hd, hr]

/-- What `removeAddress` can leave behind, for every schedule. -/
theorem removeAddress_cases (aff : KeyAffinity) (address : String) (w : World) :
    (removeAddress aff address w).2.db = w.db ∨
    (removeAddress aff address w).2.db =
      ⟨w.db.addresses.filter (fun a => decide (a.AddrKey ≠ address)), w.db.transactions⟩ ∨
    (removeAddress aff address w).2.db =
      ⟨w.db.addresses.filter (fun a => decide (a.AddrKey ≠ address)),
        w.db.transactions.filter (fun t => decide (t.AddrKey ≠ aff address))⟩ :=
  removeAddress_cases_aux (r := (removeAddress aff address w).1) rfl

/-! ### The aggregation loop -/

theorem appendTransactions_eq :
    ∀ (txs : List database.Transaction) (ad : models.AddressData) (c : Nat),
      appendTransactions txs ad c =
        ({ ad with Transactions := ad.Transactions ++
            txs.map (fun tx => ⟨tx.TxHash, tx.Block, tx.Result⟩) }, c + txs.length) := by
  intro txs
  induction txs with
  | nil => intro ad c; simp [appendTransactions]
  | cons tx rest ih =>
    intro ad c
    simp only [appendTransactions, ih, List.map_cons, List.length_cons, List.append_assoc,
      List.singleton_append]
    congr 1
    omega

theorem RetrieveTransactions_quiet (aff : KeyAffinity) (address : String) (w : World)
    (hf : w.faults = []) :
    (RetrieveTransactions aff address w).1 =
      Except.ok (w.db.transactions.filter (fun t => decide (t.AddrKey = aff address))) ∧
    (RetrieveTransactions aff address w).2.db = w.db ∧
    (RetrieveTransactions aff address w).2.faults = [] ∧
    (RetrieveTransactions aff address w).2.calls = w.calls := by
  obtain ⟨he1, he2⟩ := enter_of_nil_faults hf
  unfold RetrieveTransactions
  simp [he1, he2]

theorem accountInfoLoop_of_nil_faults (aff : KeyAffinity) :
    ∀ (addrs : List database.Address) (resp : getAccountInfoResponse) (w : World),
      w.faults = [] → resp.AccountBalance < 2 ^ 64 →
      ∃ out, (accountInfoLoop aff addrs resp w).1 = Except.ok out ∧
        (accountInfoLoop aff addrs resp w).2.db = w.db ∧
        (accountInfoLoop aff addrs resp w).2.calls = w.calls ∧
        out.AccountBalance =
          (resp.AccountBalance + (addrs.map (fun a => a.Balance)).sum) % 2 ^ 64 ∧
        out.TotalTransactionCount =
          resp.TotalTransactionCount +
            (addrs.map (fun a => storedCount aff w.db a.AddrKey)).sum := by
  intro addrs
  induction addrs with
  | nil =>
    intro resp w _ hb
    exact ⟨resp, by simp [accountInfoLoop], by simp [accountInfoLoop],
      by simp [accountInfoLoop], by simpa using (Nat.mod_eq_of_lt hb).symm, by simp⟩
  | cons a rest ih =>
    intro resp w hf hb
    obtain ⟨t1, t2, t3, t4⟩ := RetrieveTransactions_quiet aff a.AddrKey w hf
    obtain ⟨out, hout, hdb, hcalls, hbal, hcnt⟩ := ih
      { AccountBalance := (resp.AccountBalance + a.Balance) % 2 ^ 64
        TotalTransactionCount := resp.TotalTransactionCount +
          (w.db.transactions.filter (fun t => decide (t.AddrKey = aff a.AddrKey))).length
        Addresses := resp.Addresses ++
          [{ Address := a.AddrKey, Balance := a.Balance,
             Transactions := [] ++ (w.db.transactions.filter
               (fun t => decide (t.AddrKey = aff a.AddrKey))).map
                 (fun tx => ⟨tx.TxHash, tx.Block, tx.Result⟩) }] }
      (RetrieveTransactions aff a.AddrKey w).2 t3
      (Nat.mod_lt _ (by norm_num))
    have hrun : accountInfoLoop aff (a :: rest) resp w =
        accountInfoLoop aff rest
          { AccountBalance := (resp.AccountBalance + a.Balance) % 2 ^ 64
            TotalTransactionCount := resp.TotalTransactionCount +
              (w.db.transactions.filter (fun t => decide (t.AddrKey = aff a.AddrKey))).length
            Addresses := resp.Addresses ++
              [{ Address := a.AddrKey, Balance := a.Balance,
                 Transactions := [] ++ (w.db.transactions.filter
                   (fun t => decide (t.AddrKey = aff a.AddrKey))).map
                     (fun tx => ⟨tx.TxHash, tx.Block, tx.Result⟩) }] }
          (RetrieveTransactions aff a.AddrKey w).2 := by
      rw [accountInfoLoop]
      rw [show RetrieveTransactions aff a.AddrKey w =
        ((RetrieveTransactions aff a.AddrKey w).1, (RetrieveTransactions aff a.AddrKey w).2)
        from rfl, t1]
      simp only [appendTransactions_eq]
    rw [hrun]
    refine ⟨out, hout, by rw [hdb, t2], by rw [hcalls, t4], ?_, ?_⟩
    · rw [hbal]
      simp only [List.map_cons, List.sum_cons]
      rw [Nat.mod_add_mod, Nat.add_assoc]
    · rw [hcnt]
      simp only [List.map_cons, List.sum_cons, storedCount, t2]
      omega

namespace blockchain

theorem GetAddressDataLoop_listUpstream (L : List txJSON) (bal : Nat → Nat) (address : String) :
    ∀ (fuel offset : Nat) (acc : List models.Transaction),
      (L.length - offset + 99) / 100 < fuel →
      GetAddressDataLoop (listUpstream L bal) address fuel offset acc =
        some (Except.ok ⟨address, bal (offset + 100 * ((L.length - offset + 99) / 100)),
          acc ++ (L.drop offset).map toTransaction⟩) := by
  intro fuel
  induction fuel with
  | zero => intro offset acc h; omega
  | succ fuel ih =>
    intro offset acc h
    simp only [GetAddressDataLoop, listUpstream, limitParam]
    by_cases hlen : L.length ≤ offset
    · have h0 : L.drop offset = [] := List.drop_eq_nil_of_le hlen
      have hp : (L.length - offset + 99) / 100 = 0 := by omega
      simp [h0, hp]
    · have hlt : offset < L.length := by omega
      have hne : ((L.drop offset).take 100).length ≠ 0 := by
        simp [List.length_take, List.length_drop]; omega
      rw [if_neg hne]
      have hfuel : (L.length - (offset + 100) + 99) / 100 < fuel := by omega
      rw [ih (offset + 100) _ hfuel]
      have hp : offset + 100 + 100 * ((L.length - (offset + 100) + 99) / 100)
          = offset + 100 * ((L.length - offset + 99) / 100) := by omega
      have hsplit : (L.drop offset).take 100 ++ L.drop (offset + 100) = L.drop offset := by
        have := List.take_append_drop 100 (L.drop offset)
        rwa [List.drop_drop] at this
      have hmap : List.map (fun tx : txJSON => (⟨tx.Hash, tx.BlockIndex, tx.Result⟩ : models.Transaction))
          ((L.drop offset).take 100) = ((L.drop offset).take 100).map toTransaction := rfl
      rw [hp, hmap, List.append_assoc, ← List.map_append, hsplit]

end blockchain

/-! ## The properties -/

/-! ### Adding an address, then refreshing it -/

/-- C1, counterexample. (i) `A` is untracked, the provider delivers `n = 2`
transactions, `h1` is already stored under `B`: `addAddress` reports `added`,
one row is stored for `A`, and the next `updateAddress` asks at offset 1.
(ii) `A` is untracked but a row keyed `A` survives from a failed removal, the
provider delivers `n = 1` transaction: `addAddress` reports `added`, two rows
are stored for `A`, and the next `updateAddress` asks at offset 2. -/
theorem addAddress_cursor_counterexample :
    ((∀ a ∈ sharedWorld.db.addresses, a.AddrKey ≠ "A") ∧
      (∃ d, sharedProvider "A" 0 = Except.ok d ∧ d.Transactions.length = 2) ∧
      (addAddress keyAffinity sharedProvider "A" "u" sharedWorld).1 = (true, none) ∧
      (CountTransactions keyAffinity "A"
        (addAddress keyAffinity sharedProvider "A" "u" sharedWorld).2).1 = Except.ok 1 ∧
      (updateAddress keyAffinity sharedProvider "A"
        (addAddress keyAffinity sharedProvider "A" "u" sharedWorld).2).2.calls
        = [("A", 0), ("A", 1)]) ∧
    (orphanWorld.db = ⟨[], [⟨"h0", 1, 100, "A"⟩]⟩ ∧
      (∀ a ∈ orphanWorld.db.addresses, a.AddrKey ≠ "A") ∧
      (∃ d, singleProvider "A" 0 = Except.ok d ∧ d.Transactions.length = 1) ∧
      (addAddress keyAffinity singleProvider "A" "u" orphanWorld).1 = (true, none) ∧
      (CountTransactions keyAffinity "A"
        (addAddress keyAffinity singleProvider "A" "u" orphanWorld).2).1 = Except.ok 2 ∧
      (updateAddress keyAffinity singleProvider "A"
        (addAddress keyAffinity singleProvider "A" "u" orphanWorld).2).2.calls
        = [("A", 0), ("A", 2)]) :=
  ⟨⟨by decide, ⟨_, rfl, rfl⟩, by rfl, by rfl, by rfl⟩,
   ⟨by rfl, by decide, ⟨_, rfl, rfl⟩, by rfl, by rfl, by rfl⟩⟩

/-- C1, amended. Let `A` be untracked with no transaction row stored under its
key (as the `INT` column reads it), let no store call fail and no read cursor
be open, and let the provider answer `fetch(A, 0)` with a balance below
`2 ^ 63` and `n` transactions whose hashes are pairwise distinct and not yet
stored. Then `addAddress A owner` reports `added`, exactly `n` rows are stored
for `A`, and the next `updateAddress A` (whatever the provider then is) calls
`GetAddressData` once, with offset `n`. -/
theorem addAddress_then_updateAddress_offset (aff : KeyAffinity)
    (beh beh2 : BlockExplorerHandler) (address username : String) (w : World)
    (d : models.AddressData)
    (hf : w.faults = []) (hc : w.cursors = 0)
    (hu : ∀ a ∈ w.db.addresses, a.AddrKey ≠ address)
    (ho : ∀ t ∈ w.db.transactions, t.AddrKey ≠ aff address)
    (hp : beh address 0 = Except.ok d)
    (hb : d.Balance < 2 ^ 63)
    (hnd : (d.Transactions.map (fun tx => tx.Hash)).Nodup)
    (hfresh : ∀ tx ∈ d.Transactions, ∀ t ∈ w.db.transactions, t.TxHash ≠ tx.Hash) :
    (addAddress aff beh address username w).1 = (true, none) ∧
    (CountTransactions aff address (addAddress aff beh address username w).2).1 =
      Except.ok d.Transactions.length ∧
    (updateAddress aff beh2 address (addAddress aff beh address username w).2).2.calls =
      (addAddress aff beh address username w).2.calls ++ [(address, d.Transactions.length)] := by
  obtain ⟨a1, a2, a3, _⟩ := addAddress_fresh aff beh address username w d hf hc hu hp hb hnd hfresh
  have h0 : (w.db.transactions.filter (fun t => decide (t.AddrKey = aff address))).length = 0 := by
    rw [List.length_eq_zero, List.filter_eq_nil_iff]
    intro t ht
    simpa using ho t ht
  have hcount : storedCount aff (addAddress aff beh address username w).2.db address =
      d.Transactions.length := by
    simp only [storedCount]
    rw [a2]
    simp only
    rw [count_append_rows, h0, Nat.zero_add]
  refine ⟨a1, ?_, ?_⟩
  · rw [(CountTransactions_quiet aff address _ a3).1, hcount]
  · rw [updateAddress_calls aff beh2 address _ (by rw [a3]; simp), hcount]

/-- Witness for C1: ten delivered transactions give offset 10. -/
theorem addAddress_then_updateAddress_offset_witness :
    (emptyWorld.faults = [] ∧ emptyWorld.cursors = 0 ∧
      tenProvider "A" 0 = Except.ok tenData ∧ tenData.Balance < 2 ^ 63 ∧
      tenData.Transactions.length = 10) ∧
    ((addAddress keyAffinity tenProvider "A" "u" emptyWorld).1 = (true, none) ∧
      (CountTransactions keyAffinity "A"
        (addAddress keyAffinity tenProvider "A" "u" emptyWorld).2).1 =
        Except.ok tenData.Transactions.length ∧
      (updateAddress keyAffinity tenProvider "A"
        (addAddress keyAffinity tenProvider "A" "u" emptyWorld).2).2.calls =
        (addAddress keyAffinity tenProvider "A" "u" emptyWorld).2.calls ++
          [("A", tenData.Transactions.length)]) :=
  ⟨⟨rfl, rfl, rfl, by decide, rfl⟩,
   addAddress_then_updateAddress_offset keyAffinity tenProvider tenProvider "A" "u" emptyWorld
     tenData rfl rfl (by decide) (by decide) rfl (by decide) (by decide) (by decide)⟩

/-! ### Refreshing a tracked address -/

/-- C2, counterexample. `A` is tracked with `N = 1` stored transaction and the
provider answers at offset 1 with `k = 1` transaction new to `A`.
(i) The hash `h2` is already stored under `B`, balance 300: `updateAddress`
returns a constraint error, the count stays 1 and the balance stays 500.
(ii) The end-to-end scenario, balance 300, no collection: the cursor left
open by the count makes the insert fail, `updateAddress` returns `database is
locked`, the count stays 1 and the balance stays 500.
(iii) Balance `2 ^ 63`, the cursor finalized in time: the transaction is
inserted, then the balance is refused; `updateAddress` returns a conversion
error, the count is 2 and the balance stays 500. -/
theorem updateAddress_post_state_counterexample :
    ((CountTransactions keyAffinity "A" transferWorld).1 = Except.ok 1 ∧
      (∃ d, scenarioProviderRefresh "A" 1 = Except.ok d ∧ d.Transactions.length = 1 ∧
        d.Balance = 300) ∧
      (updateAddress keyAffinity scenarioProviderRefresh "A" transferWorld).1 =
        (false, some Error.constraint) ∧
      (CountTransactions keyAffinity "A"
        (updateAddress keyAffinity scenarioProviderRefresh "A" transferWorld).2).1 =
        Except.ok 1 ∧
      (RetrieveAddress "A"
        (updateAddress keyAffinity scenarioProviderRefresh "A" transferWorld).2).1 =
        Except.ok ⟨"A", 500, "u"⟩) ∧
    (scenarioWorld.db = ⟨[⟨"A", 500, "u"⟩], [⟨"h1", 1, 500, "A"⟩]⟩ ∧
      (updateAddress keyAffinity scenarioProviderRefresh "A" scenarioWorld).1 =
        (false, some Error.locked) ∧
      (updateAddress keyAffinity scenarioProviderRefresh "A" scenarioWorld).2.db =
        scenarioWorld.db) ∧
    ((∃ d, hugeProvider "A" 1 = Except.ok d ∧ d.Transactions.length = 1 ∧
        d.Balance = 2 ^ 63) ∧
      (updateAddress keyAffinity hugeProvider "A" scenarioWorldCollected).1 =
        (false, some Error.conversion) ∧
      (updateAddress keyAffinity hugeProvider "A" scenarioWorldCollected).2.db =
        ⟨[⟨"A", 500, "u"⟩], [⟨"h1", 1, 500, "A"⟩, ⟨"h2", 2, 200, "A"⟩]⟩) :=
  ⟨⟨by rfl, ⟨_, rfl, rfl, rfl⟩, by rfl, by rfl, by rfl⟩,
   ⟨by rfl, by rfl, by rfl⟩,
   ⟨⟨_, rfl, rfl, by rfl⟩, by rfl, by rfl⟩⟩

/-- C2, amended. Let `A` be tracked with `N` stored transactions, let no store
call fail, let the read cursor that the count leaves open be finalized before
the first insert, and let the provider answer at offset `N` with a balance
`b` below `2 ^ 63` and `k ≥ 1` transactions whose hashes are pairwise distinct
and not yet stored under any address. Then `updateAddress A` reports
`updated`, the stored transaction count of `A` is `N + k`, and the stored
balance of `A` is `b`, whatever the deltas are; the owner of the row is
unchanged. -/
theorem updateAddress_post_state (aff : KeyAffinity) (beh : BlockExplorerHandler)
    (address : String) (w : World) (d : models.AddressData) (row : database.Address)
    (g0 : Bool) (rest : List Bool)
    (hf : w.faults = []) (hgc : w.gc = g0 :: true :: rest)
    (ht : (RetrieveAddress address w).1 = Except.ok row)
    (hp : beh address (storedCount aff w.db address) = Except.ok d)
    (hk : 1 ≤ d.Transactions.length)
    (hb : d.Balance < 2 ^ 63)
    (hnd : (d.Transactions.map (fun tx => tx.Hash)).Nodup)
    (hfresh : ∀ tx ∈ d.Transactions, ∀ t ∈ w.db.transactions, t.TxHash ≠ tx.Hash) :
    (updateAddress aff beh address w).1 = (true, none) ∧
    (CountTransactions aff address (updateAddress aff beh address w).2).1 =
      Except.ok (storedCount aff w.db address + d.Transactions.length) ∧
    (RetrieveAddress address (updateAddress aff beh address w).2).1 =
      Except.ok { row with Balance := d.Balance } ∧
    (∀ a ∈ (updateAddress aff beh address w).2.db.addresses,
      a.AddrKey = address → a.Balance = d.Balance) := by
  have hne : d.Transactions ≠ [] := by
    intro h
    rw [h] at hk
    simp at hk
  obtain ⟨u1, u2, u3, _⟩ :=
    updateAddress_fresh aff beh address w d g0 rest hf hgc hp hne hb hnd hfresh
  have hfind : w.db.addresses.find? (fun a => decide (a.AddrKey = address)) = some row := by
    rw [(RetrieveAddress_quiet address w hf).1] at ht
    split at ht
    · simp at ht
    · next a ha =>
      simp only [Except.ok.injEq] at ht
      rw [ha, ht]
  have hrow : row.AddrKey = address := by
    simpa using List.find?_some hfind
  refine ⟨u1, ?_, ?_, ?_⟩
  · rw [(CountTransactions_quiet aff address _ u3).1]
    simp only [storedCount]
    rw [u2]
    simp only
    rw [count_append_rows]
  · rw [(RetrieveAddress_quiet address _ u3).1, u2]
    simp only
    rw [List.find?_map]
    have hcomp : ((fun a : database.Address => decide (a.AddrKey = address)) ∘
        (fun a : database.Address =>
          if a.AddrKey = address then { a with Balance := d.Balance } else a)) =
        (fun a : database.Address => decide (a.AddrKey = address)) := by
      funext a
      simp only [Function.comp]
      split_ifs with h
      · simp [h]
      · rfl
    rw [hcomp, hfind]
    simp [hrow]
  · rw [u2]
    intro a ha hkey
    simp only [List.mem_map] at ha
    obtain ⟨a0, _, rfl⟩ := ha
    split_ifs at hkey ⊢ with h
    · rfl
    · exact absurd hkey h

/-- Witness for C2, the end-to-end scenario: after the add the count is 1 and
the balance 500; the refresh, with the cursor of the count finalized before
the insert, makes the count 2 and the balance 300. -/
theorem updateAddress_post_state_witness :
    (scenarioWorldCollected.faults = [] ∧ scenarioWorldCollected.gc = [false, true] ∧
      (RetrieveAddress "A" scenarioWorldCollected).1 = Except.ok ⟨"A", 500, "u"⟩ ∧
      storedCount keyAffinity scenarioWorldCollected.db "A" = 1 ∧
      scenarioProviderRefresh "A" 1 = Except.ok ⟨"A", 300, [⟨"h2", 2, -200⟩]⟩) ∧
    ((updateAddress keyAffinity scenarioProviderRefresh "A" scenarioWorldCollected).1 =
        (true, none) ∧
      (CountTransactions keyAffinity "A"
        (updateAddress keyAffinity scenarioProviderRefresh "A" scenarioWorldCollected).2).1 =
        Except.ok (storedCount keyAffinity scenarioWorldCollected.db "A" +
          (⟨"A", 300, [⟨"h2", 2, -200⟩]⟩ : models.AddressData).Transactions.length) ∧
      (RetrieveAddress "A"
        (updateAddress keyAffinity scenarioProviderRefresh "A" scenarioWorldCollected).2).1 =
        Except.ok { (⟨"A", 500, "u"⟩ : database.Address) with
          Balance := (⟨"A", 300, [⟨"h2", 2, -200⟩]⟩ : models.AddressData).Balance } ∧
      (∀ a ∈ (updateAddress keyAffinity scenarioProviderRefresh "A"
          scenarioWorldCollected).2.db.addresses,
        a.AddrKey = "A" →
          a.Balance = (⟨"A", 300, [⟨"h2", 2, -200⟩]⟩ : models.AddressData).Balance)) :=
  ⟨⟨by rfl, by rfl, by rfl, by rfl, by rfl⟩,
   updateAddress_post_state keyAffinity scenarioProviderRefresh "A" scenarioWorldCollected
     ⟨"A", 300, [⟨"h2", 2, -200⟩]⟩ ⟨"A", 500, "u"⟩ false []
     (by rfl) (by rfl) (by rfl) (by rfl) (by decide) (by decide) (by decide) (by decide)⟩

/-! ### Adding an address twice -/

/-- C3. If `addAddress key owner1` reports `added`, then a second
`addAddress key owner2` (any owner, any provider), whose store lookup answers,
reports `already tracked` without error, makes no provider call and leaves
both tables as they were: there is exactly one address row for the key, owned
by the first owner, and no transaction hash is stored twice. -/
theorem addAddress_idempotent (aff : KeyAffinity) (beh1 beh2 : BlockExplorerHandler)
    (address owner1 owner2 : String) (w : World)
    (hadd : (addAddress aff beh1 address owner1 w).1 = (true, none))
    (hok : (addAddress aff beh1 address owner1 w).2.faults.head? ≠ some true) :
    (addAddress aff beh2 address owner2 (addAddress aff beh1 address owner1 w).2).1 =
      (false, none) ∧
    (addAddress aff beh2 address owner2 (addAddress aff beh1 address owner1 w).2).2.calls =
      (addAddress aff beh1 address owner1 w).2.calls ∧
    (addAddress aff beh2 address owner2 (addAddress aff beh1 address owner1 w).2).2.db =
      (addAddress aff beh1 address owner1 w).2.db ∧
    (∃ b, (addAddress aff beh2 address owner2
        (addAddress aff beh1 address owner1 w).2).2.db.addresses.filter
      (fun a => decide (a.AddrKey = address)) = [⟨address, b, owner1⟩]) ∧
    ((w.db.transactions.map (fun t => t.TxHash)).Nodup →
      ((addAddress aff beh2 address owner2
        (addAddress aff beh1 address owner1 w).2).2.db.transactions.map
          (fun t => t.TxHash)).Nodup) := by
  obtain ⟨d, _, hu, haddr, _, hnodup⟩ := addAddress_added hadd
  have htracked : ∃ a ∈ (addAddress aff beh1 address owner1 w).2.db.addresses,
      a.AddrKey = address := by
    rw [haddr]
    exact ⟨⟨address, d.Balance, owner1⟩, by simp, rfl⟩
  rw [addAddress_tracked aff beh2 address owner2 _ htracked hok]
  refine ⟨rfl, by simp, by simp, ⟨d.Balance, ?_⟩, ?_⟩
  · simp only [enter_db]
    rw [haddr, List.filter_append]
    have hnil : w.db.addresses.filter (fun a => decide (a.AddrKey = address)) = [] := by
      rw [List.filter_eq_nil_iff]
      intro a ha
      simpa using hu a ha
    rw [hnil]
    simp
  · intro hn
    simp only [enter_db]
    exact hnodup hn

/-- Witness for C3: `K` is added for `ann`, then offered again for `bob`. -/
theorem addAddress_idempotent_witness :
    ((addAddress keyAffinity twiceProvider "K" "ann" twiceWorld).1 = (true, none) ∧
      (addAddress keyAffinity twiceProvider "K" "ann" twiceWorld).2.faults.head? ≠ some true) ∧
    ((addAddress keyAffinity twiceProvider "K" "bob"
        (addAddress keyAffinity twiceProvider "K" "ann" twiceWorld).2).1 = (false, none) ∧
      (addAddress keyAffinity twiceProvider "K" "bob"
        (addAddress keyAffinity twiceProvider "K" "ann" twiceWorld).2).2.calls =
        (addAddress keyAffinity twiceProvider "K" "ann" twiceWorld).2.calls ∧
      (addAddress keyAffinity twiceProvider "K" "bob"
        (addAddress keyAffinity twiceProvider "K" "ann" twiceWorld).2).2.db =
        (addAddress keyAffinity twiceProvider "K" "ann" twiceWorld).2.db ∧
      (∃ b, (addAddress keyAffinity twiceProvider "K" "bob"
          (addAddress keyAffinity twiceProvider "K" "ann" twiceWorld).2).2.db.addresses.filter
        (fun a => decide (a.AddrKey = "K")) = [⟨"K", b, "ann"⟩]) ∧
      ((twiceWorld.db.transactions.map (fun t => t.TxHash)).Nodup →
        ((addAddress keyAffinity twiceProvider "K" "bob"
          (addAddress keyAffinity twiceProvider "K" "ann" twiceWorld).2).2.db.transactions.map
            (fun t => t.TxHash)).Nodup)) :=
  ⟨⟨by rfl, by decide⟩,
   addAddress_idempotent keyAffinity twiceProvider twiceProvider "K" "ann" "bob" twiceWorld
     (by rfl) (by decide)⟩

/-! ### Failures of store writes -/

/-- C4, the code at the failing inputs. (i) `addAddress` on the empty store with
a provider delivering `h1, h1, h2`: the second `InsertTransaction` fails on the
primary key, yet the result is `(true, nil)` and two rows are stored.
(ii) `updateAddress` with a driver failure on the second of three
`InsertTransaction` calls (the cursor left by the count being finalized before
the first): the result is `(true, nil)`, `h2` is missing and the balance has
been overwritten. -/
theorem insert_failure_swallowed :
    ((InsertTransaction keyAffinity "h1" 1 500 "A"
        ⟨⟨[⟨"A", 700, "u"⟩], [⟨"h1", 1, 500, "A"⟩]⟩, [], [("A", 0)], 0, []⟩).1 =
          some Error.constraint ∧
      (addAddress keyAffinity redeliverProvider "A" "u" ⟨⟨[], []⟩, [], [], 0, []⟩).1 =
        (true, none) ∧
      (addAddress keyAffinity redeliverProvider "A" "u" ⟨⟨[], []⟩, [], [], 0, []⟩).2.db =
        ⟨[⟨"A", 700, "u"⟩], [⟨"h1", 1, 500, "A"⟩, ⟨"h2", 2, 200, "A"⟩]⟩) ∧
    ((InsertTransaction keyAffinity "h2" 2 200 "A"
        ⟨⟨[⟨"A", 0, "u"⟩], [⟨"h1", 1, 100, "A"⟩]⟩, [true], [("A", 0)], 0, []⟩).1 =
          some Error.storeFault ∧
      (updateAddress keyAffinity threeProvider "A" faultyWorld).1 = (true, none) ∧
      (updateAddress keyAffinity threeProvider "A" faultyWorld).2.db =
        ⟨[⟨"A", 600, "u"⟩], [⟨"h1", 1, 100, "A"⟩, ⟨"h3", 3, 300, "A"⟩]⟩) :=
  ⟨⟨by rfl, by rfl, by rfl⟩, ⟨by rfl, by rfl, by rfl⟩⟩

/-! ### Removing an address -/

/-- C5, counterexample. `removeAddress "A"` in which `DeleteTransactions`
fails returns the error and leaves the address row absent while the
transaction of `A` is still stored. -/
theorem removeAddress_orphans_transactions :
    (RetrieveAddress "A" crashWorld).1 = Except.ok ⟨"A", 100, "u"⟩ ∧
    (removeAddress keyAffinity "A" crashWorld).1 = (false, some Error.storeFault) ∧
    (removeAddress keyAffinity "A" crashWorld).2.db = ⟨[], [⟨"h0", 1, 100, "A"⟩]⟩ ∧
    (∀ a ∈ (removeAddress keyAffinity "A" crashWorld).2.db.addresses, a.AddrKey ≠ "A") ∧
    (∃ t ∈ (removeAddress keyAffinity "A" crashWorld).2.db.transactions, t.AddrKey = "A") :=
  ⟨by rfl, by rfl, by rfl, by decide, by decide⟩

/-- C5, amended. `removeAddress` deletes the address row first and the
transactions second. Whatever store call fails (the state left by a failure
after a step is the intermediate state after that step), the state it leaves
satisfies: if an address row for the key is still present then neither table
has changed, and the transactions table differs from the initial one only
when the address row is absent. Transactions are never deleted while their
address row remains. -/
theorem removeAddress_address_row_first (aff : KeyAffinity) (address : String) (w : World) :
    ((∃ a ∈ (removeAddress aff address w).2.db.addresses, a.AddrKey = address) →
        (removeAddress aff address w).2.db = w.db) ∧
    ((removeAddress aff address w).2.db.transactions ≠ w.db.transactions →
        ∀ a ∈ (removeAddress aff address w).2.db.addresses, a.AddrKey ≠ address) := by
  rcases removeAddress_cases aff address w with h | h | h
  · rw [h]; exact ⟨fun _ => rfl, fun hne => absurd rfl hne⟩
  · rw [h]
    refine ⟨?_, fun hne => absurd rfl hne⟩
    rintro ⟨a, ha, hk⟩
    simp [List.mem_filter] at ha
    exact absurd hk ha.2
  · rw [h]
    refine ⟨?_, ?_⟩
    · rintro ⟨a, ha, hk⟩
      simp [List.mem_filter] at ha
      exact absurd hk ha.2
    · intro _ a ha
      simp [List.mem_filter] at ha
      exact ha.2

/-- C6, the code at the failing input. Addresses `7` (of `u`) and `07` (of `v`)
are tracked, each added with its own transaction; column `transactions.addrKey`
being `INT`, both transactions are stored under the key `7`. Then
`removeAddress "7"` reports `removed` and deletes the transaction of `07` as
well, while the address row of `07` stays; a second `removeAddress "7"`
reports `not tracked`. -/
theorem removeAddress_deletes_aliased_rows :
    aliasWorld.db =
      ⟨[⟨"7", 10, "u"⟩, ⟨"07", 10, "v"⟩],
        [⟨"tx-7", 1, 10, "7"⟩, ⟨"tx-07", 1, 10, "7"⟩]⟩ ∧
    (RetrieveTransactions keyAffinity "07" aliasWorld).1 =
      Except.ok [⟨"tx-7", 1, 10, "7"⟩, ⟨"tx-07", 1, 10, "7"⟩] ∧
    (removeAddress keyAffinity "7" aliasWorld).1 = (true, none) ∧
    (removeAddress keyAffinity "7" aliasWorld).2.db = ⟨[⟨"07", 10, "v"⟩], []⟩ ∧
    (RetrieveTransactions keyAffinity "07" (removeAddress keyAffinity "7" aliasWorld).2).1 =
      Except.ok [] ∧
    (removeAddress keyAffinity "7" (removeAddress keyAffinity "7" aliasWorld).2).1 =
      (false, none) :=
  ⟨by rfl, by rfl, by rfl, by rfl, by rfl, by rfl⟩

/-! ### Failure of the provider and empty refresh -/

/-- C7. If `A` is untracked and the provider fails on `fetch(A, 0)`, then
`addAddress A owner` leaves both tables unchanged, whatever the failure
schedule; and when the store lookup answers, the provider is called once and
its error is the error returned. -/
theorem addAddress_provider_failure (aff : KeyAffinity) (beh : BlockExplorerHandler)
    (address username : String) (w : World) (e : Error)
    (hu : ∀ a ∈ w.db.addresses, a.AddrKey ≠ address)
    (hp : beh address 0 = Except.error e) :
    (addAddress aff beh address username w).2.db = w.db ∧
    (w.faults.head? ≠ some true →
      (addAddress aff beh address username w).1 = (false, some e) ∧
      (addAddress aff beh address username w).2.calls = w.calls ++ [(address, 0)]) := by
  have hn := find?_addr_none hu
  unfold addAddress RetrieveAddress
  cases h1 : (enter w).1
  · simp [h1, hn, GetAddressData, hp]
  · simp only [h1, ↓reduceIte, ne_eq, reduceCtorEq, not_false_eq_true, enter_db, true_and]
    intro hh
    rw [enter_fst_false hh] at h1
    cases h1

/-- C8. If the provider returns zero transactions at the offset given by the
stored transaction count of `A`, then `updateAddress A` leaves both tables
unchanged (so the stored balance is untouched, whatever balance the provider
reports), whatever the failure schedule; and when the count query answers,
the result is `not updated` without error. -/
theorem updateAddress_noop (aff : KeyAffinity) (beh : BlockExplorerHandler) (address : String)
    (w : World) (d : models.AddressData)
    (hp : beh address (storedCount aff w.db address) = Except.ok d)
    (h0 : d.Transactions = []) :
    (updateAddress aff beh address w).2.db = w.db ∧
    (w.faults.head? ≠ some true →
      (updateAddress aff beh address w).1 = (false, none) ∧
      (updateAddress aff beh address w).2.calls =
        w.calls ++ [(address, storedCount aff w.db address)]) := by
  simp only [storedCount] at hp
  unfold updateAddress CountTransactions
  cases h1 : (enter w).1
  · simp [h1, GetAddressData, hp, h0, storedCount]
  · simp only [h1, ↓reduceIte, enter_db, true_and]
    intro hh
    rw [enter_fst_false hh] at h1
    cases h1

/-- Witness for C7: adding the untracked `C` to `twoWorld` while the provider
is down. -/
theorem addAddress_provider_failure_witness :
    ((∀ a ∈ twoWorld.db.addresses, a.AddrKey ≠ "C") ∧
      downProvider "C" 0 = Except.error (Error.provider "timeout")) ∧
    ((addAddress keyAffinity downProvider "C" "u" twoWorld).2.db = twoWorld.db ∧
      (twoWorld.faults.head? ≠ some true →
        (addAddress keyAffinity downProvider "C" "u" twoWorld).1 =
          (false, some (Error.provider "timeout")) ∧
        (addAddress keyAffinity downProvider "C" "u" twoWorld).2.calls =
          twoWorld.calls ++ [("C", 0)])) :=
  ⟨⟨by decide, rfl⟩,
   addAddress_provider_failure keyAffinity downProvider "C" "u" twoWorld
     (Error.provider "timeout") (by decide) rfl⟩

/-- Witness for C8: refreshing `A` in `twoWorld` against `quietProvider`
keeps the stored balance 500. -/
theorem updateAddress_noop_witness :
    (quietProvider "A" (storedCount keyAffinity twoWorld.db "A") = Except.ok ⟨"A", 999, []⟩ ∧
      (⟨"A", 999, []⟩ : models.AddressData).Transactions = []) ∧
    (RetrieveAddress "A" (updateAddress keyAffinity quietProvider "A" twoWorld).2).1 =
      Except.ok ⟨"A", 500, "u"⟩ ∧
    ((updateAddress keyAffinity quietProvider "A" twoWorld).2.db = twoWorld.db ∧
      (twoWorld.faults.head? ≠ some true →
        (updateAddress keyAffinity quietProvider "A" twoWorld).1 = (false, none) ∧
        (updateAddress keyAffinity quietProvider "A" twoWorld).2.calls =
          twoWorld.calls ++ [("A", storedCount keyAffinity twoWorld.db "A")])) :=
  ⟨⟨rfl, rfl⟩, by rfl,
   updateAddress_noop keyAffinity quietProvider "A" twoWorld ⟨"A", 999, []⟩ rfl rfl⟩

/-! ### Pagination of the blockchain.com provider -/

/-- C9. Against an upstream source that holds the finite ordered list `L` and
answers a request at offset `o` with the slice `L[o : o+100]` and its current
balance, `BlockchainHandler.GetAddressData address offset` returns after
`⌈(|L| - offset) / 100⌉ + 1` requests (any larger fuel gives the same result),
and what it returns is exactly `L[offset:]` in upstream order, nothing skipped
or repeated, with the balance carried by the last response. -/
theorem GetAddressData_full_remainder (L : List blockchain.txJSON) (bal : Nat → Nat)
    (address : String) (offset fuel : Nat)
    (hfuel : (L.length - offset + 99) / 100 < fuel) :
    blockchain.GetAddressData (blockchain.listUpstream L bal) fuel address offset =
      some (Except.ok ⟨address, bal (offset + 100 * ((L.length - offset + 99) / 100)),
        (L.drop offset).map blockchain.toTransaction⟩) := by
  unfold blockchain.GetAddressData
  rw [blockchain.GetAddressDataLoop_listUpstream L bal address fuel offset [] hfuel]
  simp

/-- Witness for C9: 250 upstream transactions read from offset 30 take four
requests (offsets 30, 130, 230, 330) and yield the 220 remaining ones. -/
theorem GetAddressData_full_remainder_witness :
    (upstream250.length - 30 + 99) / 100 < 4 ∧
    blockchain.GetAddressData (blockchain.listUpstream upstream250 (fun o => 1000 + o)) 4 "A" 30 =
      some (Except.ok ⟨"A", 1000 + (30 + 100 * ((upstream250.length - 30 + 99) / 100)),
        (upstream250.drop 30).map blockchain.toTransaction⟩) :=
  ⟨by simp [upstream250],
   GetAddressData_full_remainder upstream250 (fun o => 1000 + o) "A" 30 4
     (by simp [upstream250])⟩

/-! ### Aggregation for account reporting -/

/-- C10, counterexample. (i) For three stored addresses with balance
`2 ^ 63 - 1` each, the `uint64` accumulator wraps: `AccountBalance` is
`2 ^ 63 - 3`, while the stored balances add up to `3 * 2 ^ 63 - 3`.
(ii) For the addresses `7` and `07` of one account, each added with its own
transaction, the table holds two rows, both under the key `7`; each address
is reported with both, and `TotalTransactionCount` is 4. -/
theorem getAccountInfo_balance_wraps :
    (∃ resp, (getAccountInfo keyAffinity "u" wrapWorld).1 = Except.ok resp ∧
      resp.AccountBalance = 9223372036854775805 ∧
      ((wrapWorld.db.addresses.filter (fun a => decide (a.Username = "u"))).map
        (fun a => a.Balance)).sum = 27670116110564327421 ∧
      resp.AccountBalance ≠
        ((wrapWorld.db.addresses.filter (fun a => decide (a.Username = "u"))).map
          (fun a => a.Balance)).sum) ∧
    (aliasAccountWorld.db.transactions =
        [⟨"tx-7", 1, 10, "7"⟩, ⟨"tx-07", 1, 10, "7"⟩] ∧
      ∃ resp, (getAccountInfo keyAffinity "u" aliasAccountWorld).1 = Except.ok resp ∧
        resp.TotalTransactionCount = 4) :=
  ⟨⟨⟨9223372036854775805, 0, [⟨"A", 9223372036854775807, []⟩,
      ⟨"B", 9223372036854775807, []⟩, ⟨"C", 9223372036854775807, []⟩]⟩,
      by rfl, by rfl, by decide, by decide⟩,
   ⟨by rfl, ⟨⟨20, 4, [⟨"7", 10, [⟨"tx-7", 1, 10⟩, ⟨"tx-07", 1, 10⟩]⟩,
      ⟨"07", 10, [⟨"tx-7", 1, 10⟩, ⟨"tx-07", 1, 10⟩]⟩]⟩, by rfl, by rfl⟩⟩⟩

/-- C10, amended. When the store reads answer, `getAccountInfo` produces a
response without calling the provider or changing a table; its
`AccountBalance` is the sum of the stored balances of the addresses of the
account, reduced modulo `2 ^ 64` (hence the sum itself whenever that is below
`2 ^ 64`), and its `TotalTransactionCount` is the sum over these addresses of
the number of transaction rows the store returns for the key of each. -/
theorem getAccountInfo_aggregates (aff : KeyAffinity) (username : String) (w : World)
    (hf : w.faults = []) :
    ∃ resp, (getAccountInfo aff username w).1 = Except.ok resp ∧
      (getAccountInfo aff username w).2.db = w.db ∧
      (getAccountInfo aff username w).2.calls = w.calls ∧
      resp.AccountBalance =
        ((w.db.addresses.filter (fun a => decide (a.Username = username))).map
          (fun a => a.Balance)).sum % 2 ^ 64 ∧
      (((w.db.addresses.filter (fun a => decide (a.Username = username))).map
          (fun a => a.Balance)).sum < 2 ^ 64 →
        resp.AccountBalance =
          ((w.db.addresses.filter (fun a => decide (a.Username = username))).map
            (fun a => a.Balance)).sum) ∧
      resp.TotalTransactionCount =
        ((w.db.addresses.filter (fun a => decide (a.Username = username))).map
          (fun a => storedCount aff w.db a.AddrKey)).sum := by
  obtain ⟨he1, he2⟩ := enter_of_nil_faults hf
  obtain ⟨out, hout, hdb, hcalls, hbal, hcnt⟩ := accountInfoLoop_of_nil_faults aff
    (w.db.addresses.filter (fun a => decide (a.Username = username))) ⟨0, 0, []⟩
    (enter w).2 he2 (by norm_num)
  have hrun : getAccountInfo aff username w =
      accountInfoLoop aff (w.db.addresses.filter (fun a => decide (a.Username = username)))
        ⟨0, 0, []⟩ (enter w).2 := by
    simp [getAccountInfo, RetrieveAddresses, he1]
  rw [hrun]
  refine ⟨out, hout, by simpa using hdb, by simpa using hcalls, ?_, ?_, ?_⟩
  · simpa using hbal
  · intro hlt
    rw [hbal]
    simpa using Nat.mod_eq_of_lt hlt
  · simpa using hcnt

/-- Witness for C10: account `u` of `reportWorld` has balance 570 and three
transactions. -/
theorem getAccountInfo_aggregates_witness :
    reportWorld.faults = [] ∧
    ∃ resp, (getAccountInfo keyAffinity "u" reportWorld).1 = Except.ok resp ∧
      (getAccountInfo keyAffinity "u" reportWorld).2.db = reportWorld.db ∧
      (getAccountInfo keyAffinity "u" reportWorld).2.calls = reportWorld.calls ∧
      resp.AccountBalance =
        ((reportWorld.db.addresses.filter (fun a => decide (a.Username = "u"))).map
          (fun a => a.Balance)).sum % 2 ^ 64 ∧
      (((reportWorld.db.addresses.filter (fun a => decide (a.Username = "u"))).map
          (fun a => a.Balance)).sum < 2 ^ 64 →
        resp.AccountBalance =
          ((reportWorld.db.addresses.filter (fun a => decide (a.Username = "u"))).map
            (fun a => a.Balance)).sum) ∧
      resp.TotalTransactionCount =
        ((reportWorld.db.addresses.filter (fun a => decide (a.Username = "u"))).map
          (fun a => storedCount keyAffinity reportWorld.db a.AddrKey)).sum :=
  ⟨rfl, getAccountInfo_aggregates keyAffinity "u" reportWorld rfl⟩

end Cointracker
